import Mathlib

/-!
Verification development for the katib repository core:
the Hyperband suggestion engine (`pkg/suggestion/hyperband_service.go`)
and the Kubernetes worker lifecycle controller
(`pkg/manager/worker/kubernetes/kubernetes.go`).

The Go code is shallowly embedded: float64 values are modelled as `ℚ`,
Go ints as `ℤ`, fallible calls as `Except`, and the external Manager /
cluster / database collaborators as environment records of response
functions.  Go library routines used by the code (`strconv.Itoa`,
`strconv.Atoi`, `strconv.ParseFloat`, `strconv.FormatFloat` with the
fixed 4-decimal format, `strings.Split`, `strings.Join`) are modelled by
the executable functions below, which implement the same observable
semantics for the inputs the repository produces.
-/

namespace Katib

/-- Decimal digit predicate: characters '0'..'9'. -/
def isDig (c : Char) : Bool := 48 ≤ c.toNat && c.toNat ≤ 57

/-- The numeric value of a decimal digit character. -/
def dVal (c : Char) : Nat := c.toNat - 48

/-- The decimal digit character for a value below ten. -/
def dChar (d : Nat) : Char := Char.ofNat (48 + d)

/-- Fuel-driven digit emission (structural recursion so that the
kernel can evaluate it); `fuel = n` always suffices. -/
def natToDigitsAux : Nat → Nat → List Char
  | 0, n => [dChar n]
  | fuel + 1, n =>
    if n < 10 then [dChar n]
    else natToDigitsAux fuel (n / 10) ++ [dChar (n % 10)]

/-- Decimal digit string of a natural number, most significant digit first.
Models the digit-emitting core of Go `strconv.Itoa` / `FormatFloat`. -/
def natToDigits (n : Nat) : List Char := natToDigitsAux n n

/-- Value of a decimal digit string (leading zeros allowed). -/
def digitsVal (l : List Char) : Nat := l.foldl (fun a c => 10 * a + dVal c) 0

/-- Parse a non-empty all-digit string; `none` on anything else. -/
def parseNat (l : List Char) : Option Nat :=
  if l ≠ [] ∧ l.all isDig then some (digitsVal l) else none

/-- Parse an optionally '-'-signed decimal integer.
Models Go `strconv.Atoi` (the repository never emits a '+' sign). -/
def parseIntOpt : List Char → Option Int
  | '-' :: rest => (parseNat rest).map (fun m => -(m : Int))
  | l => (parseNat l).map (fun m => (m : Int))

/-- Go `strconv.Atoi` as used by the code: the error is discarded with
`, _ =`, so a parse failure yields the zero value. -/
def goAtoi (s : String) : Int := (parseIntOpt s.data).getD 0

/-- Decimal rendering of an integer; models Go `strconv.Itoa`. -/
def intToStr (i : Int) : String :=
  if i < 0 then ⟨'-' :: natToDigits (-i).toNat⟩ else ⟨natToDigits i.toNat⟩

/-- Parse an unsigned decimal, optionally with a fraction part after a
single '.' (at least one digit overall), as accepted by Go
`strconv.ParseFloat` on the strings this repository produces. -/
def parseUFloat (l : List Char) : Option ℚ :=
  match l.span (fun c => c ≠ '.') with
  | (ip, []) => if ip ≠ [] ∧ ip.all isDig then some (digitsVal ip) else none
  | (ip, _ :: fp) =>
    if (ip ≠ [] ∨ fp ≠ []) ∧ ip.all isDig ∧ fp.all isDig then
      some ((digitsVal ip : ℚ) + (digitsVal fp : ℚ) / 10 ^ fp.length)
    else none

/-- Parse an optionally '-'-signed decimal fraction. -/
def parseFloatOpt : List Char → Option ℚ
  | '-' :: rest => (parseUFloat rest).map Neg.neg
  | l => parseUFloat l

/-- Go `strconv.ParseFloat` as used by the code: the error is discarded
with `, _ =`, so a parse failure yields 0. -/
def goParseFloat (s : String) : ℚ := (parseFloatOpt s.data).getD 0

/-- Left-pad a digit string with '0' to four characters. -/
def pad4 (l : List Char) : List Char := List.replicate (4 - l.length) '0' ++ l

/-- Go `strconv.FormatFloat(x, 'f', 4, 64)`: fixed format with exactly
four digits after the decimal point, rounding to nearest. -/
def formatFixed4 (q : ℚ) : String :=
  if round (q * 10000) < 0 then
    ⟨'-' :: (natToDigits ((round (q * 10000)).natAbs / 10000) ++
      '.' :: pad4 (natToDigits ((round (q * 10000)).natAbs % 10000)))⟩
  else
    ⟨natToDigits ((round (q * 10000)).natAbs / 10000) ++
      '.' :: pad4 (natToDigits ((round (q * 10000)).natAbs % 10000))⟩

/-- Split a character list on a separator character; always returns a
non-empty list of fragments.  Core of the model of Go `strings.Split`
with a one-character separator. -/
def splitChar (sep : Char) : List Char → List (List Char)
  | [] => [[]]
  | c :: rest =>
    if c = sep then [] :: splitChar sep rest
    else
      match splitChar sep rest with
      | [] => [[c]]
      | h :: t => (c :: h) :: t

/-- Interleave a separator character between fragments; core of the model
of Go `strings.Join` with a one-character separator. -/
def joinChar (sep : Char) : List (List Char) → List Char
  | [] => []
  | [x] => x
  | x :: xs => x ++ sep :: joinChar sep xs

/-- Go `strings.Split(s, sep)` for a one-character separator. -/
def goSplit (s : String) (sep : Char) : List String :=
  (splitChar sep s.data).map (fun l => ⟨l⟩)

/-- Go `strings.Join(l, sep)` for a one-character separator. -/
def goJoin (l : List String) (sep : Char) : String :=
  ⟨joinChar sep (l.map String.data)⟩

/-- Go float-to-int conversion / `math.Trunc`: truncation toward zero. -/
def gotrunc (q : ℚ) : Int := if q < 0 then -(⌊-q⌋) else ⌊q⌋

/- ### Round-trip lemmas for the string models -/

theorem digitsVal_append (a b : List Char) :
    digitsVal (a ++ b) = digitsVal a * 10 ^ b.length + digitsVal b := by
  induction b using List.reverseRecOn with
  | nil => simp [digitsVal]
  | append_singleton xs x ih =>
    simp only [digitsVal, List.foldl_append, List.foldl_cons, List.foldl_nil] at *
    rw [ih, List.length_append, List.length_cons, List.length_nil]
    ring

theorem dVal_dChar (d : Nat) (h : d < 10) : dVal (dChar d) = d := by
  interval_cases d <;> rfl

theorem isDig_dChar (d : Nat) (h : d < 10) : isDig (dChar d) = true := by
  interval_cases d <;> rfl

theorem natToDigitsAux_spec (fuel : Nat) : ∀ n, n < 10 ^ (fuel + 1) →
    digitsVal (natToDigitsAux fuel n) = n ∧
    (natToDigitsAux fuel n).all isDig = true := by
  induction fuel with
  | zero =>
    intro n h
    rw [pow_one] at h
    exact ⟨by simp [natToDigitsAux, digitsVal, dVal_dChar n h],
      by simp [natToDigitsAux, isDig_dChar n h]⟩
  | succ fuel ih =>
    intro n h
    rw [natToDigitsAux]
    by_cases h10 : n < 10
    · rw [if_pos h10]
      exact ⟨by simp [digitsVal, dVal_dChar n h10], by simp [isDig_dChar n h10]⟩
    · rw [if_neg h10]
      have hdiv : n / 10 < 10 ^ (fuel + 1) := by
        have hpow : 10 ^ (fuel + 1 + 1) = 10 ^ (fuel + 1) * 10 := by rw [← pow_succ]
        omega
      obtain ⟨ihv, ihd⟩ := ih (n / 10) hdiv
      constructor
      · rw [digitsVal_append, ihv]
        simp [digitsVal, dVal_dChar (n % 10) (Nat.mod_lt _ (by omega))]
        omega
      · rw [List.all_append, ihd]
        simp [isDig_dChar (n % 10) (Nat.mod_lt _ (by omega))]

theorem n_lt_ten_pow (n : Nat) : n < 10 ^ (n + 1) :=
  lt_of_lt_of_le (Nat.lt_pow_self (by norm_num) n)
    (Nat.pow_le_pow_right (by norm_num) (Nat.le_succ n))

theorem digitsVal_natToDigits (n : Nat) : digitsVal (natToDigits n) = n :=
  (natToDigitsAux_spec n n (n_lt_ten_pow n)).1

theorem natToDigits_ne_nil (n : Nat) : natToDigits n ≠ [] := by
  rw [natToDigits]
  cases n with
  | zero => simp [natToDigitsAux]
  | succ m =>
    rw [natToDigitsAux]
    split <;> simp

theorem natToDigits_all_isDig (n : Nat) : (natToDigits n).all isDig = true :=
  (natToDigitsAux_spec n n (n_lt_ten_pow n)).2

theorem parseNat_natToDigits (n : Nat) : parseNat (natToDigits n) = some n := by
  simp [parseNat, natToDigits_ne_nil, natToDigits_all_isDig, digitsVal_natToDigits]

theorem natToDigits_head_ne_neg (n : Nat) :
    ∀ c ∈ natToDigits n, c ≠ '-' := by
  intro c hc
  have h := natToDigits_all_isDig n
  rw [List.all_eq_true] at h
  have := h c hc
  intro hcontra
  rw [hcontra] at this
  simp [isDig] at this

theorem parseIntOpt_intToStr (i : Int) : parseIntOpt (intToStr i).data = some i := by
  by_cases h : i < 0
  · simp only [intToStr, if_pos h]
    show parseIntOpt ('-' :: natToDigits (-i).toNat) = some i
    rw [parseIntOpt]
    rw [parseNat_natToDigits]
    simp
    omega
  · simp only [intToStr, if_neg h]
    show parseIntOpt (natToDigits i.toNat) = some i
    have hne : natToDigits i.toNat ≠ [] := natToDigits_ne_nil _
    have hnc : ∀ c ∈ natToDigits i.toNat, c ≠ '-' := natToDigits_head_ne_neg _
    match hd : natToDigits i.toNat with
    | [] => exact absurd hd hne
    | c :: rest =>
      have hcne : c ≠ '-' := hnc c (by rw [hd]; exact List.mem_cons_self _ _)
      rw [parseIntOpt.eq_def]
      split
      · next heq => exact absurd (by injection heq) hcne
      · next l heq =>
        rw [← hd, parseNat_natToDigits]
        simp
        omega

theorem goAtoi_intToStr (i : Int) : goAtoi (intToStr i) = i := by
  simp [goAtoi, parseIntOpt_intToStr]

theorem takeWhile_append_stop {p : Char → Bool} (xs ys : List Char) (y : Char)
    (hxs : ∀ x ∈ xs, p x = true) (hy : p y = false) :
    (xs ++ y :: ys).takeWhile p = xs := by
  induction xs with
  | nil => simp [List.takeWhile_cons, hy]
  | cons a as ih =>
    have ha : p a = true := hxs a (List.mem_cons_self _ _)
    rw [List.cons_append, List.takeWhile_cons, if_pos ha,
      ih (fun x hx => hxs x (List.mem_cons_of_mem _ hx))]

theorem dropWhile_append_stop {p : Char → Bool} (xs ys : List Char) (y : Char)
    (hxs : ∀ x ∈ xs, p x = true) (hy : p y = false) :
    (xs ++ y :: ys).dropWhile p = y :: ys := by
  induction xs with
  | nil => simp [List.dropWhile_cons, hy]
  | cons a as ih =>
    have ha : p a = true := hxs a (List.mem_cons_self _ _)
    rw [List.cons_append, List.dropWhile_cons, if_pos ha,
      ih (fun x hx => hxs x (List.mem_cons_of_mem _ hx))]

theorem span_append_stop {p : Char → Bool} (xs ys : List Char) (y : Char)
    (hxs : ∀ x ∈ xs, p x = true) (hy : p y = false) :
    (xs ++ y :: ys).span p = (xs, y :: ys) := by
  rw [List.span_eq_take_drop, takeWhile_append_stop xs ys y hxs hy,
    dropWhile_append_stop xs ys y hxs hy]

theorem isDig_ne_dot {c : Char} (h : isDig c = true) : (decide (c ≠ '.')) = true := by
  simp only [isDig, Bool.and_eq_true, decide_eq_true_eq] at h ⊢
  intro hc
  rw [hc] at h
  simp at h

theorem digitsVal_replicate_zero (k : Nat) :
    digitsVal (List.replicate k '0') = 0 := by
  induction k with
  | zero => rfl
  | succ n ih =>
    show digitsVal ('0' :: List.replicate n '0') = 0
    simpa [digitsVal, dVal] using ih

theorem digitsVal_pad4 (l : List Char) : digitsVal (pad4 l) = digitsVal l := by
  rw [pad4, digitsVal_append, digitsVal_replicate_zero]
  ring

theorem pad4_all_isDig (l : List Char) (h : l.all isDig = true) :
    (pad4 l).all isDig = true := by
  rw [pad4, List.all_append, h, Bool.and_true, List.all_eq_true]
  intro x hx
  rw [List.eq_of_mem_replicate hx]
  rfl

theorem natToDigitsAux_length_le (fuel : Nat) : ∀ n k, n < 10 ^ k → 1 ≤ k →
    (natToDigitsAux fuel n).length ≤ k := by
  induction fuel with
  | zero =>
    intro n k _ h1
    simpa [natToDigitsAux] using h1
  | succ fuel ih =>
    intro n k h h1
    rw [natToDigitsAux]
    by_cases h10 : n < 10
    · rw [if_pos h10]
      simpa using h1
    · rw [if_neg h10]
      have hk2 : 2 ≤ k := by
        by_contra hcon
        have hk1 : k = 1 := by omega
        rw [hk1, pow_one] at h
        omega
      have hdiv : n / 10 < 10 ^ (k - 1) := by
        have hpow : 10 ^ k = 10 ^ (k - 1) * 10 := by
          rw [← pow_succ]
          congr 1
          omega
        omega
      have := ih (n / 10) (k - 1) hdiv (by omega)
      simp only [List.length_append, List.length_cons, List.length_nil]
      omega

theorem natToDigits_length_le (n k : Nat) (hk : 1 ≤ k) (h : n < 10 ^ k) :
    (natToDigits n).length ≤ k :=
  natToDigitsAux_length_le n n k h hk

theorem pad4_length (l : List Char) (h : l.length ≤ 4) : (pad4 l).length = 4 := by
  rw [pad4, List.length_append, List.length_replicate]
  omega

theorem parseUFloat_format_body (a : Nat) :
    parseUFloat (natToDigits (a / 10000) ++ '.' :: pad4 (natToDigits (a % 10000)))
      = some ((a : ℚ) / 10000) := by
  have hspan := span_append_stop (p := fun c => decide (c ≠ '.'))
    (natToDigits (a / 10000)) (pad4 (natToDigits (a % 10000))) '.'
    (fun x hx => isDig_ne_dot ((List.all_eq_true.mp (natToDigits_all_isDig _)) x hx))
    (by simp)
  simp only [parseUFloat, hspan]
  have hip : (natToDigits (a / 10000)).all isDig = true := natToDigits_all_isDig _
  have hfp : (pad4 (natToDigits (a % 10000))).all isDig = true :=
    pad4_all_isDig _ (natToDigits_all_isDig _)
  rw [if_pos ⟨Or.inl (natToDigits_ne_nil _), hip, hfp⟩]
  have hlen : (pad4 (natToDigits (a % 10000))).length = 4 :=
    pad4_length _ (natToDigits_length_le _ 4 (by omega) (Nat.mod_lt _ (by omega)))
  rw [digitsVal_natToDigits, hlen, digitsVal_pad4, digitsVal_natToDigits]
  congr 1
  have hsum : a / 10000 * 10000 + a % 10000 = a := by omega
  have hcast : ((a / 10000 * 10000 + a % 10000 : Nat) : ℚ) = (a : ℚ) := by
    rw [hsum]
  push_cast at hcast
  field_simp
  linarith

theorem goParseFloat_formatFixed4 (q : ℚ) (m : ℤ) (hm : (m : ℚ) = q * 10000) :
    goParseFloat (formatFixed4 q) = q := by
  have hq : q = (m : ℚ) / 10000 := by
    rw [hm]
    field_simp
  have hround : round (q * 10000) = m := by
    rw [← hm, round_intCast]
  by_cases hneg : m < 0
  · have : formatFixed4 q =
        ⟨'-' :: (natToDigits (m.natAbs / 10000) ++
          '.' :: pad4 (natToDigits (m.natAbs % 10000)))⟩ := by
      rw [formatFixed4, hround, if_pos hneg]
    rw [goParseFloat, this]
    show (parseFloatOpt ('-' :: _)).getD 0 = q
    rw [parseFloatOpt]
    rw [parseUFloat_format_body]
    rw [hq]
    simp
    rw [show ((m.natAbs : Nat) : ℚ) = -(m : ℚ) by
      rw [Int.cast_natAbs, abs_of_neg hneg]
      push_cast
      ring]
    ring
  · have : formatFixed4 q =
        ⟨natToDigits (m.natAbs / 10000) ++
          '.' :: pad4 (natToDigits (m.natAbs % 10000))⟩ := by
      rw [formatFixed4, hround, if_neg hneg]
    rw [goParseFloat, this]
    have hne : ∀ c ∈ natToDigits (m.natAbs / 10000) ++
        '.' :: pad4 (natToDigits (m.natAbs % 10000)), c ≠ '-' := by
      intro c hc
      rcases List.mem_append.mp hc with hc | hc
      · exact natToDigits_head_ne_neg _ c hc
      · rcases List.mem_cons.mp hc with hc | hc
        · rw [hc]
          decide
        · have := (List.all_eq_true.mp
            (pad4_all_isDig _ (natToDigits_all_isDig (m.natAbs % 10000)))) c hc
          intro hcontra
          rw [hcontra] at this
          simp [isDig] at this
    match hd : natToDigits (m.natAbs / 10000) ++
        '.' :: pad4 (natToDigits (m.natAbs % 10000)) with
    | [] => exact absurd (List.append_ne_nil_of_right_ne_nil _ (by simp) hd) (by simp)
    | c :: rest =>
      have hcne : c ≠ '-' := hne c (by rw [hd]; exact List.mem_cons_self _ _)
      show (parseFloatOpt (c :: rest)).getD 0 = q
      rw [parseFloatOpt.eq_def]
      split
      · next heq => exact absurd (by injection heq) hcne
      · next l heq =>
        rw [← hd, parseUFloat_format_body]
        rw [hq]
        simp only [Option.getD_some]
        rw [show ((m.natAbs : Nat) : ℚ) = (m : ℚ) by
          rw [Int.cast_natAbs, abs_of_nonneg (not_lt.mp hneg)]]

/- ### Split/Join round trip -/

theorem splitChar_ne_nil (sep : Char) (l : List Char) : splitChar sep l ≠ [] := by
  cases l with
  | nil => simp [splitChar]
  | cons c rest =>
    rw [splitChar]
    split
    · simp
    · split <;> simp

theorem splitChar_no_sep (sep : Char) (l : List Char) (h : sep ∉ l) :
    splitChar sep l = [l] := by
  induction l with
  | nil => rfl
  | cons c rest ih =>
    rw [splitChar]
    have hc : ¬ c = sep := fun hc => h (by rw [hc]; exact List.mem_cons_self _ _)
    rw [if_neg hc, ih (fun hr => h (List.mem_cons_of_mem _ hr))]

theorem splitChar_append_sep (sep : Char) (x r : List Char) (h : sep ∉ x) :
    splitChar sep (x ++ sep :: r) = x :: splitChar sep r := by
  induction x with
  | nil =>
    rw [List.nil_append, splitChar, if_pos rfl]
  | cons c cs ih =>
    have hc : ¬ c = sep := fun hc => h (by rw [hc]; exact List.mem_cons_self _ _)
    rw [List.cons_append, splitChar, if_neg hc,
      ih (fun hr => h (List.mem_cons_of_mem _ hr))]

theorem splitChar_joinChar (sep : Char) (ls : List (List Char)) (hne : ls ≠ [])
    (h : ∀ x ∈ ls, sep ∉ x) :
    splitChar sep (joinChar sep ls) = ls := by
  induction ls with
  | nil => exact absurd rfl hne
  | cons x xs ih =>
    cases xs with
    | nil =>
      rw [joinChar]
      exact splitChar_no_sep sep x (h x (List.mem_cons_self _ _))
    | cons y ys =>
      have hj : joinChar sep (x :: y :: ys) = x ++ sep :: joinChar sep (y :: ys) := rfl
      rw [hj, splitChar_append_sep sep x _ (h x (List.mem_cons_self _ _)),
        ih (by simp) (fun z hz => h z (List.mem_cons_of_mem _ hz))]

theorem string_mk_data (s : String) : (⟨s.data⟩ : String) = s := rfl

theorem goSplit_goJoin (l : List String) (hne : l ≠ [])
    (h : ∀ x ∈ l, ',' ∉ x.data) :
    goSplit (goJoin l ',') ',' = l := by
  rw [goSplit, goJoin]
  show (splitChar ',' (joinChar ',' (l.map String.data))).map (fun c => ⟨c⟩) = l
  rw [splitChar_joinChar ',' (l.map String.data) (by simpa using hne)
    (by intro x hx
        obtain ⟨s, hs, rfl⟩ := List.mem_map.mp hx
        exact h s hs)]
  rw [List.map_map]
  have hcomp : (fun c => (⟨c⟩ : String)) ∘ String.data = id := funext fun s => rfl
  rw [hcomp, List.map_id]

/- ### Data model (`pkg/api`) -/

/-- `api.ParameterType`; `unknown` is the proto zero value. -/
inductive ParameterType
  | unknown
  | double
  | int
  | discrete
  | categorical
  deriving DecidableEq

/-- `api.OptimizationType`; `unknownOpt` is the proto zero value. -/
inductive OptimizationType
  | unknownOpt
  | minimize
  | maximize
  deriving DecidableEq

/-- `api.State`: the worker lifecycle states. -/
inductive WorkerState
  | pending
  | running
  | completed
  | killed
  | errorState
  deriving DecidableEq

/-- `api.Parameter`. -/
structure Parameter where
  name : String
  parameterType : ParameterType
  value : String
  deriving DecidableEq

/-- `api.Trial`. -/
structure Trial where
  trialId : String
  studyId : String
  parameterSet : List Parameter
  deriving DecidableEq

/-- `api.FeasibleSpace`. -/
structure FeasibleSpace where
  max : String
  min : String
  list : List String
  deriving DecidableEq

/-- `api.ParameterConfig`. -/
structure ParameterConfig where
  name : String
  parameterType : ParameterType
  feasible : FeasibleSpace
  deriving DecidableEq

/-- The part of `api.StudyConfig` the suggestion service reads. -/
structure StudyConfig where
  parameterConfigs : List ParameterConfig
  objectiveValueName : String
  optimizationType : OptimizationType
  deriving DecidableEq

/-- The part of `api.Worker` the suggestion service reads. -/
structure Worker where
  workerId : String
  trialId : String
  status : WorkerState
  deriving DecidableEq

/-- `api.MetricsLog`: one named metric series. -/
structure MetricsLog where
  name : String
  values : List String
  deriving DecidableEq

/-- `api.MetricsLogSet`: per-worker status plus metric series. -/
structure MetricsLogSet where
  workerId : String
  workerStatus : WorkerState
  metricsLogs : List MetricsLog
  deriving DecidableEq

/-- `api.SuggestionParameter`: one name/value entry of the opaque state. -/
structure SuggestionParameter where
  name : String
  value : String
  deriving DecidableEq

/-- `api.GetSuggestionsRequest`. -/
structure GetSuggestionsRequest where
  studyId : String
  suggestionAlgorithm : String
  paramId : String
  deriving DecidableEq

/-- `suggestion.Evals`: one ranked bracket entry. -/
structure Evals where
  id : String
  value : ℚ
  deriving DecidableEq

/-- `suggestion.Bracket`. -/
abbrev Bracket := List Evals

/-- Insert into a descending-sorted bracket. -/
def insertDesc (e : Evals) : Bracket → Bracket
  | [] => [e]
  | x :: xs => if e.value ≥ x.value then e :: x :: xs else x :: insertDesc e xs

/-- `sort.Sort(bracket)` with `Less i j ↔ value i > value j`: sort the
bracket descending by score. -/
def sortBracket (b : Bracket) : Bracket := List.foldr insertDesc [] b

/-- `suggestion.HyperBandParameters`: the persisted Hyperband state.
float64 fields are modelled as `ℚ`, int fields as `ℤ`. -/
structure HyperBandParameters where
  eta : ℚ
  sMax : Int
  b_l : ℚ
  r_l : ℚ
  r : ℚ
  n : Int
  shloopitr : Int
  currentS : Int
  ResourceName : String
  ObjectiveValueName : String
  evaluatingTrials : List String
  deriving DecidableEq

/-- Errors of the embedded Go code.  `panicIdx` models a Go runtime
index-out-of-range panic; `failedPrec` the gRPC `FAILED_PRECONDITION`
status; `config` the invalid-suggestion-parameter error. -/
inductive GoErr
  | rpc (msg : String)
  | config
  | failedPrec
  | panicIdx
  deriving DecidableEq

instance instDecEqExcept {ε α : Type} [DecidableEq ε] [DecidableEq α] :
    DecidableEq (Except ε α)
  | .error e, .error f =>
    if h : e = f then .isTrue (congrArg Except.error h)
    else .isFalse (fun hc => h (Except.error.inj hc))
  | .error _, .ok _ => .isFalse (fun hc => Except.noConfusion hc)
  | .ok _, .error _ => .isFalse (fun hc => Except.noConfusion hc)
  | .ok a, .ok b =>
    if h : a = b then .isTrue (congrArg Except.ok h)
    else .isFalse (fun hc => h (Except.ok.inj hc))

/-- The Manager service and the process environment, as response
functions: one record per study under test. -/
structure ManagerEnv where
  dial : Except String Unit
  getStudy : Except String StudyConfig
  getTrials : Except String (List Trial)
  getWorkers : String → Except String (List Worker)
  getMetrics : List String → String → Except String (List MetricsLogSet)
  getSuggestionParameters : String → Except String (List SuggestionParameter)
  createTrialId : Nat → Except String String
  randInt : Nat → Nat → Int → Int → Int
  randDouble : Nat → Nat → ℚ → ℚ → ℚ

/-- Side effects of one `GetSuggestions` run: the CreateTrial counter,
the trials created on the Manager (in creation order), and the state
handed to `SetSuggestionParameters` (if it was called). -/
structure STrace where
  k : Nat := 0
  created : List Trial := []
  saved : Option HyperBandParameters := none
  deriving DecidableEq

/- ### Parameter codec (`purseSuggestionParameters` / `saveSuggestionParameters`) -/

/-- One iteration of the decode switch over a suggestion parameter. -/
def applyParam (p : HyperBandParameters) (sp : SuggestionParameter) :
    HyperBandParameters :=
  if sp.name = "eta" then { p with eta := goParseFloat sp.value }
  else if sp.name = "r_l" then { p with r_l := goParseFloat sp.value }
  else if sp.name = "ResourceName" then { p with ResourceName := sp.value }
  else if sp.name = "ObjectiveValueName" then { p with ObjectiveValueName := sp.value }
  else if sp.name = "b_l" then { p with b_l := goParseFloat sp.value }
  else if sp.name = "sMax" then { p with sMax := goAtoi sp.value }
  else if sp.name = "r" then { p with r := goParseFloat sp.value }
  else if sp.name = "n" then { p with n := goAtoi sp.value }
  else if sp.name = "shloopitr" then { p with shloopitr := goAtoi sp.value }
  else if sp.name = "currentS" then { p with currentS := goAtoi sp.value }
  else if sp.name = "evaluatingTrials" then
    { p with evaluatingTrials := goSplit sp.value ',' }
  else p

/-- The sentinel-initialised state the decode loop starts from. -/
def initialHbParams : HyperBandParameters :=
  { eta := -1, sMax := -1, b_l := -1, r_l := -1, r := -1, n := -1,
    shloopitr := -1, currentS := -1, ResourceName := "",
    ObjectiveValueName := "", evaluatingTrials := [] }

/-- Modelled from the Go `math` library:
`int(math.Trunc(math.Log(r_l) / math.Log(eta)))` for the positive
arguments the code supplies, i.e. the largest `k ≤ 64` with
`eta ^ k ≤ r_l`. -/
def logRatioTrunc (r_l eta : ℚ) : Int :=
  (Nat.findGreatest (fun k => eta ^ k ≤ r_l) 64 : Int)

/-- `purseSuggestionParameters`: decode the persisted Hyperband state,
validate it, and derive defaults for unset fields. -/
def purseSuggestionParameters (env : ManagerEnv) (_studyId : String)
    (sparam : List SuggestionParameter) : Except GoErr HyperBandParameters :=
  let p := sparam.foldl applyParam initialHbParams
  if p.r_l ≤ 0 ∨ p.ResourceName = "" then .error .config
  else
    let p := if p.eta ≤ 0 then { p with eta := 3 } else p
    match (if p.ObjectiveValueName = "" then
            (env.getStudy.map fun sc => { p with ObjectiveValueName := sc.objectiveValueName })
           else .ok p) with
    | .error e => .error (.rpc e)
    | .ok p =>
      let p := if p.sMax = -1 then { p with sMax := logRatioTrunc p.r_l p.eta } else p
      let p := if p.b_l = -1 then { p with b_l := ((p.sMax : ℚ) + 1) * p.r_l } else p
      let p := if p.n = -1 then
        { p with n := ⌈(p.b_l / p.r_l) * (p.eta ^ p.sMax / ((p.sMax : ℚ) + 1))⌉ } else p
      let p := if p.currentS = -1 then { p with currentS := p.sMax } else p
      let p := if p.shloopitr = -1 then { p with shloopitr := 0 } else p
      let p := if p.r = -1 then { p with r := p.r_l * p.eta ^ (-p.sMax) } else p
      .ok p

/-- The parameter list built by `saveSuggestionParameters` (the codec's
encode side; the function then sends it via `SetSuggestionParameters`).
`ObjectiveValueName` is not persisted. -/
def encodeSuggestionParameters (hb : HyperBandParameters) : List SuggestionParameter :=
  [⟨"eta", formatFixed4 hb.eta⟩,
   ⟨"sMax", intToStr hb.sMax⟩,
   ⟨"b_l", formatFixed4 hb.b_l⟩,
   ⟨"r_l", formatFixed4 hb.r_l⟩,
   ⟨"r", formatFixed4 hb.r⟩,
   ⟨"shloopitr", intToStr hb.shloopitr⟩,
   ⟨"n", intToStr hb.n⟩,
   ⟨"currentS", intToStr hb.currentS⟩,
   ⟨"ResourceName", hb.ResourceName⟩,
   ⟨"evaluatingTrials", goJoin hb.evaluatingTrials ','⟩]

/- ### Bracket generation and evaluation -/

/-- Resource-parameter value formatting: `strconv.Itoa(int(r))` for INT
parameters, `strconv.FormatFloat(r, 'f', 4, 64)` otherwise. -/
def fmtResource (t : ParameterType) (r : ℚ) : String :=
  if t = .int then intToStr (gotrunc r) else formatFixed4 r

/-- The value assigned to parameter `j` of master-bracket trial `i`:
the resource parameter gets `r`; other parameters are sampled through
the `RandomSuggestService` oracle (`IntRandom` / `DoubelRandom`,
modelled as environment functions indexed by trial and parameter). -/
def masterParamValue (env : ManagerEnv) (hb : HyperBandParameters) (r : ℚ)
    (i j : Nat) (pc : ParameterConfig) : String :=
  if pc.name = hb.ResourceName then fmtResource pc.parameterType r
  else
    match pc.parameterType with
    | .int => intToStr (env.randInt i j (goAtoi pc.feasible.min) (goAtoi pc.feasible.max))
    | .double => formatFixed4
        (env.randDouble i j (goParseFloat pc.feasible.min) (goParseFloat pc.feasible.max))
    | .categorical =>
        pc.feasible.list.getD
          (env.randInt i j 0 ((pc.feasible.list.length : Int) - 1)).toNat ""
    | _ => ""

/-- The `i`-th master-bracket trial as sent to `CreateTrial`
(`TrialId` is issued by the Manager afterwards). -/
def masterTrial (env : ManagerEnv) (sconf : StudyConfig) (hb : HyperBandParameters)
    (r : ℚ) (studyId : String) (i : Nat) : Trial :=
  { trialId := "", studyId := studyId,
    parameterSet := sconf.parameterConfigs.enum.map fun jpc =>
      ⟨jpc.2.name, jpc.2.parameterType, masterParamValue env hb r i jpc.1 jpc.2⟩ }

/-- The creation loop of `makeMasterBracket`: `cnt` trials remain,
`i` is the current index. -/
def masterLoop (env : ManagerEnv) (sconf : StudyConfig) (studyId : String)
    (r : ℚ) (hb : HyperBandParameters) :
    Nat → Nat → STrace → List String → List (Option Trial) →
    Except GoErr (List String × List (Option Trial)) × STrace
  | 0, _, st, tids, ts => (.ok (tids, ts), st)
  | cnt + 1, i, st, tids, ts =>
    let t := masterTrial env sconf hb r studyId i
    match env.createTrialId st.k with
    | .error m => (.error (.rpc m), st)
    | .ok tid =>
      masterLoop env sconf studyId r hb cnt (i + 1)
        { st with k := st.k + 1, created := st.created ++ [t] }
        (tids ++ [tid]) (ts ++ [some { t with trialId := tid }])

/-- `makeMasterBracket`: `n` fresh random trials at resource `r`. -/
def makeMasterBracket (env : ManagerEnv) (studyId : String) (n : Int) (r : ℚ)
    (hb : HyperBandParameters) (st : STrace) :
    Except GoErr (List String × List (Option Trial)) × STrace :=
  match env.getStudy with
  | .error e => (.error (.rpc e), st)
  | .ok sconf =>
    if n < 0 then (.error .panicIdx, st)
    else masterLoop env sconf studyId r hb n.toNat 0 st [] []

/-- The per-trial accumulation over `MetricsLogSets` in `evalWorkers`:
`some` of the sum of last metric values, `none` when some worker is not
COMPLETED (not ready), an index panic when a completed worker's metric
series is absent or empty. -/
def sumSets : List MetricsLogSet → Except GoErr (Option ℚ)
  | [] => .ok (some 0)
  | ml :: rest =>
    if ml.workerStatus ≠ .completed then .ok none
    else
      match ml.metricsLogs with
      | [] => .error .panicIdx
      | l0 :: _ =>
        match l0.values.getLast? with
        | none => .error .panicIdx
        | some v =>
          match sumSets rest with
          | .error e => .error e
          | .ok none => .ok none
          | .ok (some s) => .ok (some (goParseFloat v + s))

/-- The trial loop of `evalWorkers`. -/
def evalLoop (env : ManagerEnv) (studyId oname : String) :
    List String → Bracket → Except GoErr (Option Bracket)
  | [], acc => .ok (some (sortBracket acc))
  | tid :: rest, acc =>
    match env.getWorkers tid with
    | .error e => .error (.rpc e)
    | .ok workers =>
      match env.getMetrics (workers.map (fun w => w.workerId)) oname with
      | .error e => .error (.rpc e)
      | .ok sets =>
        match sumSets sets with
        | .error e => .error e
        | .ok none => .ok none
        | .ok (some vs) =>
          match workers with
          | [] => .ok none
          | w :: _ =>
            evalLoop env studyId oname rest
              (acc ++ [⟨w.trialId, vs / (workers.length : ℚ)⟩])

/-- `evalWorkers`: rank the evaluating trials; `.ok none` is the
"previous workers not completed" / not-ready result. -/
def evalWorkers (env : ManagerEnv) (studyId : String)
    (hb : HyperBandParameters) : Except GoErr (Option Bracket) :=
  evalLoop env studyId hb.ObjectiveValueName hb.evaluatingTrials []

/-- The parameter set the child bracket inherits for survivor `tid`:
the last trial in the `GetTrials` reply with that ID (nil, i.e. `[]`,
if there is none). -/
def lastParamSet (trials : List Trial) (tid : String) : List Parameter :=
  trials.foldl (fun acc pt => if pt.trialId = tid then pt.parameterSet else acc) []

/-- The declared type of the resource parameter: last matching config
(proto zero value if none matches). -/
def resourceType (configs : List ParameterConfig) (rn : String) : ParameterType :=
  configs.foldl (fun acc pc => if pc.name = rn then pc.parameterType else acc) .unknown

/-- The per-parameter rewrite of the child bracket: the resource
parameter's value becomes `r_i`, all others are untouched. -/
def rwParam (rn : String) (rtype : ParameterType) (r_i : ℚ) (p : Parameter) : Parameter :=
  if p.name = rn then { p with value := fmtResource rtype r_i } else p

/-- The child-bracket trial built for survivor `tid`, as sent to
`CreateTrial`. -/
def childTrialReq (trials : List Trial) (rn : String) (rtype : ParameterType)
    (r_i : ℚ) (studyId tid : String) : Trial :=
  { trialId := "", studyId := studyId,
    parameterSet := (lastParamSet trials tid).map (rwParam rn rtype r_i) }

/-- The survivor selection of `makeChildBracket`: `parent[n:]` under
MINIMIZE, `parent[:n]` under MAXIMIZE; `none` models the Go
slice-bounds panic when `n` is outside `[0, len(parent)]`. -/
def childSelection (opt : OptimizationType) (parent : Bracket) (n : Int) :
    Option Bracket :=
  match opt with
  | .minimize =>
    if 0 ≤ n ∧ n ≤ (parent.length : Int) then some (parent.drop n.toNat) else none
  | .maximize =>
    if 0 ≤ n ∧ n ≤ (parent.length : Int) then some (parent.take n.toNat) else none
  | .unknownOpt => some []

/-- The creation loop of `makeChildBracket`: iterates over the selected
survivors, writing into the two preallocated length-`n` slices; writing
past index `n` is the Go index panic. -/
def childLoop (env : ManagerEnv) (trials : List Trial) (rn : String)
    (rtype : ParameterType) (r_i : ℚ) (studyId : String) :
    Bracket → Nat → List String → List (Option Trial) → STrace →
    Except GoErr (List String × List (Option Trial)) × STrace
  | [], _, tids, ts, st => (.ok (tids, ts), st)
  | e :: rest, i, tids, ts, st =>
    let t := childTrialReq trials rn rtype r_i studyId e.id
    match env.createTrialId st.k with
    | .error m => (.error (.rpc m), st)
    | .ok tid =>
      let st' := { st with k := st.k + 1, created := st.created ++ [t] }
      if i < tids.length then
        childLoop env trials rn rtype r_i studyId rest (i + 1)
          (tids.set i tid) (ts.set i (some { t with trialId := tid })) st'
      else (.error .panicIdx, st')

/-- `makeChildBracket`: promote `n` survivors of the ranked parent
bracket to resource `r_i`. -/
def makeChildBracket (env : ManagerEnv) (parent : Bracket) (studyId : String)
    (n : Int) (r_i : ℚ) (hb : HyperBandParameters) (st : STrace) :
    Except GoErr (List String × List (Option Trial)) × STrace :=
  match env.getStudy with
  | .error e => (.error (.rpc e), st)
  | .ok sconf =>
    match childSelection sconf.optimizationType parent n with
    | none => (.error .panicIdx, st)
    | some child =>
      match env.getTrials with
      | .error e => (.error (.rpc e), st)
      | .ok trials =>
        if n < 0 then (.error .panicIdx, st)
        else
          childLoop env trials hb.ResourceName
            (resourceType sconf.parameterConfigs hb.ResourceName) r_i studyId
            child 0 (List.replicate n.toNat "") (List.replicate n.toNat none) st

/-- `makeBracket`: master bracket on a cold round, otherwise evaluate
and promote; `.ok none` is the not-ready signal. -/
def makeBracket (env : ManagerEnv) (studyId : String) (n : Int) (r : ℚ)
    (hb : HyperBandParameters) (st : STrace) :
    Except GoErr (Option (List String × List (Option Trial))) × STrace :=
  if hb.evaluatingTrials = [] ∨ hb.shloopitr = 0 then
    match makeMasterBracket env studyId n r hb st with
    | (.error e, st') => (.error e, st')
    | (.ok p, st') => (.ok (some p), st')
  else
    match evalWorkers env studyId hb with
    | .error e => (.error e, st)
    | .ok none => (.ok none, st)
    | .ok (some b) =>
      match makeChildBracket env b studyId n r hb st with
      | (.error e, st') => (.error e, st')
      | (.ok p, st') => (.ok (some p), st')

/- ### Hyperband controller (`GetSuggestions`) -/

/-- `hbLoopParamUpdate`: roll the outer loop over. -/
def hbLoopParamUpdate (hb : HyperBandParameters) : HyperBandParameters :=
  { hb with
    shloopitr := 0
    n := gotrunc ((hb.b_l / hb.r_l) * (hb.eta ^ hb.currentS / ((hb.currentS : ℚ) + 1)))
    r := hb.r_l * hb.eta ^ (-hb.currentS) }

/-- `getLoopParam`: the per-round `(n_i, r_i)`. -/
def getLoopParam (hb : HyperBandParameters) : Int × ℚ :=
  (gotrunc ((hb.n : ℚ) * hb.eta ^ (-hb.shloopitr)), hb.r * hb.eta ^ hb.shloopitr)

/-- `shLoopParamUpdate`: advance the inner loop, decrement the outer
index when it rolls past `currentS`. -/
def shLoopParamUpdate (hb : HyperBandParameters) : HyperBandParameters :=
  let hb' := { hb with shloopitr := hb.shloopitr + 1 }
  if hb'.shloopitr > hb'.currentS then { hb' with currentS := hb'.currentS - 1 } else hb'

/-- `GetSuggestions`: the Hyperband controller's one RPC.  The Go code
ignores the error of `saveSuggestionParameters`; the trace records the
state handed to it.  Go's `log.Fatalf` on the two leading errors is
modelled as an error return (either way: no trials, no save). -/
def getSuggestions (env : ManagerEnv) (req : GetSuggestionsRequest) :
    Except GoErr (List (Option Trial)) × STrace :=
  match env.dial with
  | .error e => (.error (.rpc e), {})
  | .ok _ =>
    match env.getSuggestionParameters req.paramId with
    | .error e => (.error (.rpc e), {})
    | .ok spr =>
      match purseSuggestionParameters env req.studyId spr with
      | .error e => (.error e, {})
      | .ok hb0 =>
        if hb0.currentS ≤ 0 then (.ok [], {})
        else
          let hb1 := if hb0.shloopitr > hb0.currentS then hbLoopParamUpdate hb0 else hb0
          let nr := getLoopParam hb1
          match makeBracket env req.studyId nr.1 nr.2 hb1 {} with
          | (.error e, st) => (.error e, st)
          | (.ok none, st) => (.error .failedPrec, st)
          | (.ok (some p), st) =>
            let hb2 := shLoopParamUpdate { hb1 with evaluatingTrials := p.1 }
            (.ok p.2, { st with saved := some hb2 })

/- ### Worker lifecycle controller (`pkg/manager/worker/kubernetes`) -/

/-- One pod as returned by the cluster List call (name and phase). -/
structure PodInfo where
  name : String
  phase : String
  deriving DecidableEq

/-- One worker row as read from the Database. -/
structure WorkerRow where
  workerId : String
  status : WorkerState
  deriving DecidableEq

/-- `api.WorkerConfig.Toleration`. -/
structure Toleration where
  key : String
  operator : String
  value : String
  effect : String
  deriving DecidableEq

/-- `api.WorkerConfig.MountConf`. -/
structure MountConf where
  pvc : String
  path : String
  deriving DecidableEq

/-- `api.WorkerConfig`. -/
structure WorkerConfig where
  image : String
  command : List String
  scheduler : String
  pullSecret : String
  labels : List (String × String)
  annotations : List (String × String)
  tolerations : List Toleration
  mount : Option MountConf
  cpu : Int
  memory : String
  gpu : Int
  deriving DecidableEq

/-- The single container of the generated Job. -/
structure Container where
  image : String
  name : String
  command : List String
  imagePullPolicy : String
  volumeMounts : List (String × String)
  limits : List (String × String)
  deriving DecidableEq

/-- The generated `batchv1.Job` manifest (the fields the code sets). -/
structure JobManifest where
  kind : String
  name : String
  labels : List (String × String)
  podLabels : List (String × String)
  podAnnotations : List (String × String)
  schedulerName : String
  container : Container
  restartPolicy : String
  imagePullSecrets : List String
  tolerations : List Toleration
  volumes : List (String × String)
  deriving DecidableEq

/-- The cluster orchestrator plus Database environment of the worker
controller, as response functions. -/
structure WorkerEnv where
  podsList : String → Except String (List PodInfo)
  jobGet : String → Except String Int
  jobCreateRes : JobManifest → Except String Unit
  podLogs : String → Option Nat → Except String String
  getWorkerTimestamp : String → Except String (Option Nat)
  getWorkerList : String → Except String (List WorkerRow)
  updateWorkerRes : String → WorkerState → Except String Unit
  storeWorkerLogsRes : String → List String → Except String Unit

/-- A Database write issued by the worker controller. -/
inductive DbOp
  | updateWorker (wid : String) (st : WorkerState)
  | storeLogs (wid : String) (lines : List String)
  deriving DecidableEq

/-- A cluster-side deletion issued by the worker controller (results
are ignored by the code: best-effort teardown). -/
inductive ClusterOp
  | deleteJob (name : String)
  | deletePod (name : String)
  deriving DecidableEq

/-- Trace of one worker-controller operation. -/
structure WTrace where
  dbOps : List DbOp := []
  clusterOps : List ClusterOp := []
  deriving DecidableEq

/-- `pl, _ := pcl.List(...)`: the List error is discarded, leaving the
zero-value (empty) pod list. -/
def podsOrEmpty (env : WorkerEnv) (wid : String) : List PodInfo :=
  (env.podsList wid).toOption.getD []

/-- The quantity suffixes accepted by the model of `ParseQuantity`. -/
def quantitySuffixes : List String :=
  ["", "Ki", "Mi", "Gi", "Ti", "Pi", "Ei", "n", "u", "m", "k", "M", "G", "T", "P", "E"]

/-- Strip one leading '-' sign. -/
def stripNeg : List Char → List Char
  | '-' :: r2 => r2
  | l => l

/-- Modelled from the k8s apimachinery `resource.ParseQuantity`,
restricted to the integer-with-suffix grammar the repository emits:
optionally '-'-signed digits followed by a standard suffix.  The
canonical quantity is represented by its input string. -/
def parseQuantity (s : String) : Option String :=
  let l := stripNeg s.data
  let ds := l.takeWhile isDig
  let suf : String := ⟨l.dropWhile isDig⟩
  if ds ≠ [] ∧ suf ∈ quantitySuffixes then some s else none

/-- Go map insert for the label merge (caller-supplied labels win). -/
def upsert (m : List (String × String)) (kv : String × String) :
    List (String × String) :=
  if m.any (fun e => e.1 = kv.1) then m.map (fun e => if e.1 = kv.1 then kv else e)
  else m ++ [kv]

/-- Merge caller labels over the katib base labels. -/
def mergeLabels (base extra : List (String × String)) : List (String × String) :=
  extra.foldl upsert base

/-- The volume and volume-mount lists derived from the optional PVC
mount configuration. -/
def mountLists (mount : Option MountConf) :
    List (String × String) × List (String × String) :=
  match mount with
  | some m =>
    if m.pvc ≠ "" ∧ m.path ≠ "" then
      ([("pvc-mount-point", m.pvc)], [("pvc-mount-point", m.path)])
    else ([], [])
  | none => ([], [])

/-- `genJobManifest`: synthesize the Job manifest for one worker.
`none` models the quantity-parse error return. -/
def genJobManifest (wid : String) (conf : WorkerConfig) : Option JobManifest :=
  let labels := mergeLabels [("katib-version", "alpha-0.2.0"), ("worker-id", wid)] conf.labels
  match parseQuantity (intToStr conf.cpu) with
  | none => none
  | some cpuReq =>
    match parseQuantity conf.memory with
    | none => none
    | some memoryReq =>
      let baseLimits := [("cpu", cpuReq), ("memory", memoryReq)]
      match (if conf.gpu > 0 then
              (parseQuantity (intToStr conf.gpu)).map
                (fun g => baseLimits ++ [("nvidia.com/gpu", g)])
             else some baseLimits) with
      | none => none
      | some limits =>
        some { kind := "Job"
               name := wid
               labels := labels
               podLabels := labels
               podAnnotations := conf.annotations
               schedulerName := conf.scheduler
               container := { image := conf.image
                              name := wid
                              command := conf.command
                              imagePullPolicy := "Always"
                              volumeMounts := (mountLists conf.mount).2
                              limits := limits }
               restartPolicy := "OnFailure"
               imagePullSecrets := [conf.pullSecret]
               tolerations := conf.tolerations
               volumes := (mountLists conf.mount).1 }

/-- `SpawnWorker`: generate the manifest and submit the Job. -/
def SpawnWorker (env : WorkerEnv) (wid : String) (conf : WorkerConfig) :
    Except GoErr Unit :=
  match genJobManifest wid conf with
  | none => .error (.rpc "quantity parse error")
  | some job =>
    match env.jobCreateRes job with
    | .error e => .error (.rpc e)
    | .ok _ => .ok ()

/-- `StoreWorkerLog`: harvest new pod log lines into the Database.
An empty log response is a successful no-op. -/
def StoreWorkerLog (env : WorkerEnv) (wID : String) :
    Except GoErr Unit × List DbOp :=
  match podsOrEmpty env wID with
  | [] => (.error (.rpc ("No Pods are found in Job " ++ wID)), [])
  | p :: _ =>
    match env.getWorkerTimestamp wID with
    | .error e => (.error (.rpc e), [])
    | .ok mt =>
      match env.podLogs p.name mt with
      | .error e => (.error (.rpc e), [])
      | .ok logs =>
        if logs = "" then (.ok (), [])
        else
          match env.storeWorkerLogsRes wID (goSplit logs '\n') with
          | .error e => (.error (.rpc e), [DbOp.storeLogs wID (goSplit logs '\n')])
          | .ok _ => (.ok (), [DbOp.storeLogs wID (goSplit logs '\n')])

/-- `IsWorkerComplete`: Job `Succeeded` count non-zero and first pod
phase `Succeeded`. -/
def IsWorkerComplete (env : WorkerEnv) (wID : String) : Except GoErr Bool :=
  match env.jobGet wID with
  | .error e => .error (.rpc e)
  | .ok s =>
    if s = 0 then .ok false
    else
      match podsOrEmpty env wID with
      | [] => .error (.rpc ("No Pods are found in Job " ++ wID))
      | p :: _ => .ok (p.phase = "Succeeded")

/-- The loop body of `UpdateWorkerStatus` for one worker row. -/
def updateOneWorker (env : WorkerEnv) (w : WorkerRow) : Except GoErr Unit × WTrace :=
  if w.status = .pending then
    match StoreWorkerLog env w.workerId with
    | (.ok _, ops) =>
      match env.updateWorkerRes w.workerId .running with
      | .error e => (.error (.rpc e), ⟨ops ++ [.updateWorker w.workerId .running], []⟩)
      | .ok _ => (.ok (), ⟨ops ++ [.updateWorker w.workerId .running], []⟩)
    | (.error _, ops) => (.ok (), ⟨ops, []⟩)
  else if w.status = .running then
    match IsWorkerComplete env w.workerId with
    | .error e => (.error e, ⟨[], []⟩)
    | .ok c =>
      match StoreWorkerLog env w.workerId with
      | (.error e, ops) => (.error e, ⟨ops, []⟩)
      | (.ok _, ops) =>
        if c then
          match env.updateWorkerRes w.workerId .completed with
          | .error e => (.error (.rpc e), ⟨ops ++ [.updateWorker w.workerId .completed], []⟩)
          | .ok _ =>
            match podsOrEmpty env w.workerId with
            | [] => (.error .panicIdx,
                ⟨ops ++ [.updateWorker w.workerId .completed], [.deleteJob w.workerId]⟩)
            | p :: _ => (.ok (),
                ⟨ops ++ [.updateWorker w.workerId .completed],
                 [.deleteJob w.workerId, .deletePod p.name]⟩)
        else (.ok (), ⟨ops, []⟩)
  else (.ok (), ⟨[], []⟩)

/-- Sequential driver over a list: runs the per-element body, combining
traces, and aborts on the first error (the Go `for` + `return err`). -/
def runSeq {α : Type} (f : α → Except GoErr Unit × WTrace) :
    List α → WTrace → Except GoErr Unit × WTrace
  | [], acc => (.ok (), acc)
  | x :: rest, acc =>
    match f x with
    | (.error e, tr) => (.error e, ⟨acc.dbOps ++ tr.dbOps, acc.clusterOps ++ tr.clusterOps⟩)
    | (.ok _, tr) => runSeq f rest ⟨acc.dbOps ++ tr.dbOps, acc.clusterOps ++ tr.clusterOps⟩

/-- `UpdateWorkerStatus`: reconcile all workers of a study. -/
def UpdateWorkerStatus (env : WorkerEnv) (studyId : String) :
    Except GoErr Unit × WTrace :=
  match env.getWorkerList studyId with
  | .error e => (.error (.rpc e), ⟨[], []⟩)
  | .ok ws => runSeq (updateOneWorker env) ws ⟨[], []⟩

/-- The loop body of `CleanWorkers` for one worker row. -/
def cleanOneWorker (env : WorkerEnv) (w : WorkerRow) : Except GoErr Unit × WTrace :=
  if w.status = .running then
    match podsOrEmpty env w.workerId with
    | [] => (.error .panicIdx, ⟨[], [.deleteJob w.workerId]⟩)
    | p :: _ =>
      match env.updateWorkerRes w.workerId .killed with
      | .error e => (.error (.rpc e),
          ⟨[.updateWorker w.workerId .killed], [.deleteJob w.workerId, .deletePod p.name]⟩)
      | .ok _ => (.ok (),
          ⟨[.updateWorker w.workerId .killed], [.deleteJob w.workerId, .deletePod p.name]⟩)
  else (.ok (), ⟨[], []⟩)

/-- `CleanWorkers`: reap every RUNNING worker of the study. -/
def CleanWorkers (env : WorkerEnv) (studyId : String) :
    Except GoErr Unit × WTrace :=
  match env.getWorkerList studyId with
  | .error e => (.error (.rpc e), ⟨[], []⟩)
  | .ok ws => runSeq (cleanOneWorker env) ws ⟨[], []⟩

/-- The innermost body of `StopWorkers`: one worker row against one
requested ID.  Unlike the other teardown paths, the pod List error is
checked and returned here. -/
def stopOneMatch (env : WorkerEnv) (iscomplete : Bool) (w : WorkerRow)
    (wid : String) : Except GoErr Unit × WTrace :=
  if w.status = .running ∧ w.workerId = wid then
    match env.podsList wid with
    | .error e => (.error (.rpc e), ⟨[], [.deleteJob wid]⟩)
    | .ok [] => (.error .panicIdx, ⟨[], [.deleteJob wid]⟩)
    | .ok (p :: _) =>
      match env.updateWorkerRes wid (if iscomplete then .completed else .killed) with
      | .error e => (.error (.rpc e),
          ⟨[.updateWorker wid (if iscomplete then .completed else .killed)],
           [.deleteJob wid, .deletePod p.name]⟩)
      | .ok _ => (.ok (),
          ⟨[.updateWorker wid (if iscomplete then .completed else .killed)],
           [.deleteJob wid, .deletePod p.name]⟩)
  else (.ok (), ⟨[], []⟩)

/-- `StopWorkers`: reap the RUNNING workers among the requested IDs,
marking them COMPLETED or KILLED. -/
def StopWorkers (env : WorkerEnv) (studyId : String) (wIDs : List String)
    (iscomplete : Bool) : Except GoErr Unit × WTrace :=
  match env.getWorkerList studyId with
  | .error e => (.error (.rpc e), ⟨[], []⟩)
  | .ok ws =>
    runSeq (fun w => runSeq (stopOneMatch env iscomplete w) wIDs ⟨[], []⟩) ws ⟨[], []⟩

/- ### Codec round trip (helper for several claims) -/

theorem purse_encode_core (env : ManagerEnv) (sid : String) (s : HyperBandParameters)
    (sconf : StudyConfig)
    (henv : env.getStudy = .ok sconf)
    (hovn : sconf.objectiveValueName = s.ObjectiveValueName)
    (me mb mrl mr : ℤ)
    (hme : (me : ℚ) = s.eta * 10000)
    (hmb : (mb : ℚ) = s.b_l * 10000)
    (hmrl : (mrl : ℚ) = s.r_l * 10000)
    (hmr : (mr : ℚ) = s.r * 10000)
    (heta : 0 < s.eta)
    (hrl : 0 < s.r_l)
    (hrn : s.ResourceName ≠ "")
    (hsMax : s.sMax ≠ -1) (hn : s.n ≠ -1) (hsh : s.shloopitr ≠ -1)
    (hcs : s.currentS ≠ -1) (hbl : s.b_l ≠ -1) (hre : s.r ≠ -1) :
    purseSuggestionParameters env sid (encodeSuggestionParameters s) =
      .ok { s with evaluatingTrials := goSplit (goJoin s.evaluatingTrials ',') ',' } := by
  obtain ⟨eta, sMax, b_l, r_l, r, n, sh, cs, rn, ovn, ev⟩ := s
  simp only at hme hmb hmrl hmr heta hrl hrn hsMax hn hsh hcs hbl hre hovn
  have hfold : (encodeSuggestionParameters
      ⟨eta, sMax, b_l, r_l, r, n, sh, cs, rn, ovn, ev⟩).foldl applyParam initialHbParams =
      ⟨goParseFloat (formatFixed4 eta), goAtoi (intToStr sMax),
       goParseFloat (formatFixed4 b_l), goParseFloat (formatFixed4 r_l),
       goParseFloat (formatFixed4 r), goAtoi (intToStr n),
       goAtoi (intToStr sh), goAtoi (intToStr cs), rn, "",
       goSplit (goJoin ev ',') ','⟩ := rfl
  have he : goParseFloat (formatFixed4 eta) = eta := goParseFloat_formatFixed4 _ me hme
  have hbv : goParseFloat (formatFixed4 b_l) = b_l := goParseFloat_formatFixed4 _ mb hmb
  have hrlv : goParseFloat (formatFixed4 r_l) = r_l := goParseFloat_formatFixed4 _ mrl hmrl
  have hrv : goParseFloat (formatFixed4 r) = r := goParseFloat_formatFixed4 _ mr hmr
  have ha1 : goAtoi (intToStr sMax) = sMax := goAtoi_intToStr _
  have ha2 : goAtoi (intToStr n) = n := goAtoi_intToStr _
  have ha3 : goAtoi (intToStr sh) = sh := goAtoi_intToStr _
  have ha4 : goAtoi (intToStr cs) = cs := goAtoi_intToStr _
  have hval : ¬ (r_l ≤ 0 ∨ rn = "") := not_or.mpr ⟨not_le.mpr hrl, hrn⟩
  simp only [purseSuggestionParameters, hfold, he, hbv, hrlv, hrv, ha1, ha2, ha3, ha4,
    hval, if_false, ite_true, ite_false, if_neg hval, if_neg (not_le.mpr heta),
    if_pos rfl, henv, Except.map, if_neg hsMax, if_neg hn, if_neg hsh, if_neg hcs,
    if_neg hbl, if_neg hre, hovn]

theorem purse_encode_id (env : ManagerEnv) (sid : String) (s : HyperBandParameters)
    (sconf : StudyConfig)
    (henv : env.getStudy = .ok sconf)
    (hovn : sconf.objectiveValueName = s.ObjectiveValueName)
    (me mb mrl mr : ℤ)
    (hme : (me : ℚ) = s.eta * 10000)
    (hmb : (mb : ℚ) = s.b_l * 10000)
    (hmrl : (mrl : ℚ) = s.r_l * 10000)
    (hmr : (mr : ℚ) = s.r * 10000)
    (heta : 0 < s.eta)
    (hrl : 0 < s.r_l)
    (hrn : s.ResourceName ≠ "")
    (hsMax : s.sMax ≠ -1) (hn : s.n ≠ -1) (hsh : s.shloopitr ≠ -1)
    (hcs : s.currentS ≠ -1) (hbl : s.b_l ≠ -1) (hre : s.r ≠ -1)
    (hev : s.evaluatingTrials ≠ [])
    (hcomma : ∀ x ∈ s.evaluatingTrials, ',' ∉ x.data) :
    purseSuggestionParameters env sid (encodeSuggestionParameters s) = .ok s := by
  rw [purse_encode_core env sid s sconf henv hovn me mb mrl mr hme hmb hmrl hmr
    heta hrl hrn hsMax hn hsh hcs hbl hre]
  rw [goSplit_goJoin s.evaluatingTrials hev hcomma]

/- ### C6: termination on `currentS ≤ 0` -/

/-- C6: if the Hyperband state loaded at the start of a `GetSuggestions`
call has `currentS ≤ 0`, the call returns an empty trial list with no
error, creates no trials on the Manager, and persists no state change. -/
theorem getSuggestions_terminal_empty (env : ManagerEnv) (req : GetSuggestionsRequest)
    (spr : List SuggestionParameter) (hb : HyperBandParameters)
    (hdial : env.dial = .ok ())
    (hsp : env.getSuggestionParameters req.paramId = .ok spr)
    (hpurse : purseSuggestionParameters env req.studyId spr = .ok hb)
    (hterm : hb.currentS ≤ 0) :
    getSuggestions env req = (.ok [], { k := 0, created := [], saved := none }) := by
  simp only [getSuggestions, hdial, hsp, hpurse, if_pos hterm]

/-- The study configuration used by the concrete witness environments. -/
def demoStudy : StudyConfig :=
  { parameterConfigs := [⟨"epochs", .int, ⟨"81", "1", []⟩⟩]
    objectiveValueName := "acc"
    optimizationType := .maximize }

/-- The decoded state of the C6 witness: `currentS = 0`. -/
def hbC6 : HyperBandParameters :=
  { eta := 3, sMax := 4, b_l := 405, r_l := 81, r := 1, n := 81,
    shloopitr := 5, currentS := 0, ResourceName := "epochs",
    ObjectiveValueName := "acc", evaluatingTrials := ["t1", "t2"] }

/-- The concrete C6 witness environment; the persisted parameters are
the encoding of `hbC6`. -/
def envC6 : ManagerEnv :=
  { dial := .ok ()
    getStudy := .ok demoStudy
    getTrials := .ok []
    getWorkers := fun _ => .ok []
    getMetrics := fun _ _ => .ok []
    getSuggestionParameters := fun _ => .ok (encodeSuggestionParameters hbC6)
    createTrialId := fun k => .ok ⟨'T' :: natToDigits k⟩
    randInt := fun _ _ a _ => a
    randDouble := fun _ _ a _ => a }

theorem purse_hbC6 :
    purseSuggestionParameters envC6 "s1" (encodeSuggestionParameters hbC6) = .ok hbC6 :=
  purse_encode_id envC6 "s1" hbC6 demoStudy rfl rfl
    30000 4050000 810000 10000
    (by norm_num [hbC6]) (by norm_num [hbC6]) (by norm_num [hbC6]) (by norm_num [hbC6])
    (by norm_num [hbC6]) (by norm_num [hbC6]) (by decide) (by decide) (by decide)
    (by decide) (by decide) (by norm_num [hbC6]) (by norm_num [hbC6]) (by decide)
    (by decide)

/- ### C4: codec round trip -/

/-- C4 (amended): for every valid Hyperband state `s` (`r_l > 0`,
`ResourceName` non-empty, positive `eta`, float fields on the 4-decimal
grid, non-sentinel int fields) whose `evaluatingTrials` is NON-empty
(and comma-free), decoding the encoded parameter list yields `s` back
modulo default-derivation (`ObjectiveValueName` is re-derived from the
study).  An empty `evaluatingTrials` list encodes as the empty string —
but it does NOT decode back to an empty list (see the
counterexample). -/
theorem hyperband_codec_roundtrip (env : ManagerEnv) (sid : String)
    (s : HyperBandParameters) (sconf : StudyConfig)
    (henv : env.getStudy = .ok sconf)
    (hovn : sconf.objectiveValueName = s.ObjectiveValueName)
    (me mb mrl mr : ℤ)
    (hme : (me : ℚ) = s.eta * 10000)
    (hmb : (mb : ℚ) = s.b_l * 10000)
    (hmrl : (mrl : ℚ) = s.r_l * 10000)
    (hmr : (mr : ℚ) = s.r * 10000)
    (heta : 0 < s.eta)
    (hrl : 0 < s.r_l)
    (hrn : s.ResourceName ≠ "")
    (hsMax : s.sMax ≠ -1) (hn : s.n ≠ -1) (hsh : s.shloopitr ≠ -1)
    (hcs : s.currentS ≠ -1) (hbl : s.b_l ≠ -1) (hre : s.r ≠ -1)
    (hev : s.evaluatingTrials ≠ [])
    (hcomma : ∀ x ∈ s.evaluatingTrials, ',' ∉ x.data) :
    purseSuggestionParameters env sid (encodeSuggestionParameters s) = .ok s ∧
    goJoin [] ',' = "" :=
  ⟨purse_encode_id env sid s sconf henv hovn me mb mrl mr hme hmb hmrl hmr
    heta hrl hrn hsMax hn hsh hcs hbl hre hev hcomma, rfl⟩

/-- A valid Hyperband state with an EMPTY `evaluatingTrials` list. -/
def hbC4 : HyperBandParameters :=
  { eta := 3, sMax := 4, b_l := 405, r_l := 81, r := 1, n := 81,
    shloopitr := 1, currentS := 4, ResourceName := "epochs",
    ObjectiveValueName := "acc", evaluatingTrials := [] }

/-- Counterexample to C4 as stated: the empty trial list encodes as
the empty string, but decoding yields `[""]` (a one-element list
holding the empty string), not the empty list, because Go
`strings.Split("", ",")` returns `[""]`. -/
theorem codec_empty_list_counterexample :
    goJoin ([] : List String) ',' = "" ∧
    purseSuggestionParameters envC6 "s1" (encodeSuggestionParameters hbC4) =
      .ok { hbC4 with evaluatingTrials := [""] } ∧
    ({ hbC4 with evaluatingTrials := [""] } : HyperBandParameters) ≠ hbC4 := by
  refine ⟨rfl, ?_, by decide⟩
  rw [purse_encode_core envC6 "s1" hbC4 demoStudy rfl rfl 30000 4050000 810000 10000
    (by norm_num [hbC4]) (by norm_num [hbC4]) (by norm_num [hbC4]) (by norm_num [hbC4])
    (by norm_num [hbC4]) (by norm_num [hbC4]) (by decide) (by decide) (by decide)
    (by decide) (by decide) (by norm_num [hbC4]) (by norm_num [hbC4])]
  rfl

/-- Witness for the amended C4 at a concrete state. -/
theorem hyperband_codec_roundtrip_witness :
    hbC6.evaluatingTrials ≠ [] ∧
    purseSuggestionParameters envC6 "s1" (encodeSuggestionParameters hbC6) = .ok hbC6 ∧
    goJoin [] ',' = "" :=
  ⟨by decide,
   (hyperband_codec_roundtrip envC6 "s1" hbC6 demoStudy rfl rfl
      30000 4050000 810000 10000
      (by norm_num [hbC6]) (by norm_num [hbC6]) (by norm_num [hbC6]) (by norm_num [hbC6])
      (by norm_num [hbC6]) (by norm_num [hbC6]) (by decide) (by decide) (by decide)
      (by decide) (by decide) (by norm_num [hbC6]) (by norm_num [hbC6]) (by decide)
      (by decide)).1,
   rfl⟩

/-- Witness for C6 at a concrete environment. -/
theorem getSuggestions_terminal_empty_witness :
    purseSuggestionParameters envC6 "s1" (encodeSuggestionParameters hbC6) = .ok hbC6 ∧
    hbC6.currentS ≤ 0 ∧
    getSuggestions envC6 ⟨"s1", "hyperband", "p1"⟩ =
      (.ok [], { k := 0, created := [], saved := none }) :=
  ⟨purse_hbC6, by decide,
    getSuggestions_terminal_empty envC6 ⟨"s1", "hyperband", "p1"⟩
      (encodeSuggestionParameters hbC6) hbC6 rfl rfl purse_hbC6 (by decide)⟩

/- ### C8: Job manifest resource limits -/

theorem takeWhile_all {p : Char → Bool} (l : List Char) (h : l.all p = true) :
    l.takeWhile p = l := by
  induction l with
  | nil => rfl
  | cons a as ih =>
    rw [List.all_cons, Bool.and_eq_true] at h
    rw [List.takeWhile_cons, if_pos h.1, ih h.2]

theorem dropWhile_all {p : Char → Bool} (l : List Char) (h : l.all p = true) :
    l.dropWhile p = [] := by
  induction l with
  | nil => rfl
  | cons a as ih =>
    rw [List.all_cons, Bool.and_eq_true] at h
    rw [List.dropWhile_cons, if_pos h.1, ih h.2]

theorem stripNeg_no_neg (l : List Char) (h : ∀ c ∈ l, c ≠ '-') :
    stripNeg l = l := by
  match l with
  | [] => rfl
  | c :: rest =>
    have hcne : c ≠ '-' := h c (List.mem_cons_self _ _)
    rw [stripNeg.eq_def]
    split
    · next heq => exact absurd (by injection heq) hcne
    · rfl

theorem parseQuantity_digits (l : List Char) (hne : l ≠ [])
    (hall : l.all isDig = true) (s : String) (hs : stripNeg s.data = l) :
    parseQuantity s = some s := by
  rw [parseQuantity]
  simp only [hs]
  rw [takeWhile_all _ hall, dropWhile_all _ hall]
  rw [if_pos ⟨hne, by decide⟩]

theorem parseQuantity_of_isSome (s : String) (h : (parseQuantity s).isSome) :
    parseQuantity s = some s := by
  cases hq : parseQuantity s with
  | none =>
    rw [hq] at h
    simp at h
  | some v =>
    have hv : v = s := by
      simp only [parseQuantity] at hq
      split at hq
      · exact (Option.some.inj hq).symm
      · exact absurd hq (by simp)
    rw [hv]

theorem parseQuantity_intToStr (i : Int) :
    parseQuantity (intToStr i) = some (intToStr i) := by
  by_cases h : i < 0
  · refine parseQuantity_digits (natToDigits (-i).toNat) (natToDigits_ne_nil _)
      (natToDigits_all_isDig _) _ ?_
    rw [show (intToStr i).data = '-' :: natToDigits (-i).toNat by rw [intToStr, if_pos h]]
    rfl
  · refine parseQuantity_digits (natToDigits i.toNat) (natToDigits_ne_nil _)
      (natToDigits_all_isDig _) _ ?_
    rw [show (intToStr i).data = natToDigits i.toNat by rw [intToStr, if_neg h]]
    exact stripNeg_no_neg _ (natToDigits_head_ne_neg _)

/-- C8: the Job manifest generated for a `WorkerConfig` has container
resource limits with `cpu` equal to the decimal rendering of `Cpu` and
`memory` equal to the `Memory` quantity string, and it carries a
`nvidia.com/gpu` limit key if and only if `Gpu > 0`. -/
theorem genJobManifest_resource_limits (wid : String) (conf : WorkerConfig)
    (hmem : (parseQuantity conf.memory).isSome) :
    ∃ job, genJobManifest wid conf = some job ∧
      job.container.limits.lookup "cpu" = some (intToStr conf.cpu) ∧
      job.container.limits.lookup "memory" = some conf.memory ∧
      ((job.container.limits.lookup "nvidia.com/gpu").isSome ↔ 0 < conf.gpu) := by
  have hcpu := parseQuantity_intToStr conf.cpu
  have hmem2 := parseQuantity_of_isSome conf.memory hmem
  by_cases hg : 0 < conf.gpu
  · have hjob : genJobManifest wid conf = some
        { kind := "Job", name := wid
          labels := mergeLabels [("katib-version", "alpha-0.2.0"), ("worker-id", wid)] conf.labels
          podLabels := mergeLabels [("katib-version", "alpha-0.2.0"), ("worker-id", wid)] conf.labels
          podAnnotations := conf.annotations
          schedulerName := conf.scheduler
          container := { image := conf.image, name := wid, command := conf.command
                         imagePullPolicy := "Always"
                         volumeMounts := (mountLists conf.mount).2
                         limits := [("cpu", intToStr conf.cpu), ("memory", conf.memory),
                                    ("nvidia.com/gpu", intToStr conf.gpu)] }
          restartPolicy := "OnFailure"
          imagePullSecrets := [conf.pullSecret]
          tolerations := conf.tolerations
          volumes := (mountLists conf.mount).1 } := by
      simp only [genJobManifest, hcpu, hmem2, if_pos hg, parseQuantity_intToStr conf.gpu,
        Option.map_some', List.cons_append, List.nil_append]
    refine ⟨_, hjob, ?_, ?_, ?_⟩
    · simp [List.lookup]
    · simp [List.lookup]
    · simp [List.lookup, hg]
  · have hjob : genJobManifest wid conf = some
        { kind := "Job", name := wid
          labels := mergeLabels [("katib-version", "alpha-0.2.0"), ("worker-id", wid)] conf.labels
          podLabels := mergeLabels [("katib-version", "alpha-0.2.0"), ("worker-id", wid)] conf.labels
          podAnnotations := conf.annotations
          schedulerName := conf.scheduler
          container := { image := conf.image, name := wid, command := conf.command
                         imagePullPolicy := "Always"
                         volumeMounts := (mountLists conf.mount).2
                         limits := [("cpu", intToStr conf.cpu), ("memory", conf.memory)] }
          restartPolicy := "OnFailure"
          imagePullSecrets := [conf.pullSecret]
          tolerations := conf.tolerations
          volumes := (mountLists conf.mount).1 } := by
      simp only [genJobManifest, hcpu, hmem2, if_neg hg]
    refine ⟨_, hjob, ?_, ?_, ?_⟩
    · simp [List.lookup]
    · simp [List.lookup]
    · simp [List.lookup, hg]

/-- The concrete worker configuration of the C8 witness. -/
def confC8 : WorkerConfig :=
  { image := "img", command := ["python", "train.py"], scheduler := ""
    pullSecret := "sec", labels := [], annotations := [], tolerations := []
    mount := none, cpu := 2, memory := "4Gi", gpu := 1 }

/-- Witness for C8 at a concrete configuration. -/
theorem genJobManifest_resource_limits_witness :
    (parseQuantity confC8.memory).isSome ∧
    (∃ job, genJobManifest "w1" confC8 = some job ∧
      job.container.limits.lookup "cpu" = some (intToStr confC8.cpu) ∧
      job.container.limits.lookup "memory" = some confC8.memory ∧
      ((job.container.limits.lookup "nvidia.com/gpu").isSome ↔ 0 < confC8.gpu)) :=
  ⟨by decide, genJobManifest_resource_limits "w1" confC8 (by decide)⟩

/- ### C5: metric aggregation of completed workers -/

/-- The "last metric value" of one worker's log set, as the evaluator
reads it: the last entry of the first series. -/
def lastOf (ml : MetricsLogSet) : String :=
  ((ml.metricsLogs.headD ⟨"", []⟩).values.getLast?).getD ""

theorem sumSets_formula (sets : List MetricsLogSet)
    (h : ∀ ml ∈ sets, ml.workerStatus = .completed ∧ ml.metricsLogs ≠ [] ∧
      (ml.metricsLogs.headD ⟨"", []⟩).values ≠ []) :
    sumSets sets = .ok (some ((sets.map fun ml => goParseFloat (lastOf ml)).sum)) := by
  induction sets with
  | nil => simp [sumSets]
  | cons ml rest ih =>
    obtain ⟨hc, hne, hv⟩ := h ml (List.mem_cons_self _ _)
    rw [sumSets, if_neg (by simp [hc])]
    cases hml : ml.metricsLogs with
    | nil => exact absurd hml hne
    | cons l0 ls =>
      have hv0 : l0.values ≠ [] := by
        rw [hml] at hv
        simpa using hv
      cases hlast : l0.values.getLast? with
      | none =>
        rw [List.getLast?_eq_none_iff] at hlast
        exact absurd hlast hv0
      | some v =>
        rw [ih (fun x hx => h x (List.mem_cons_of_mem _ hx))]
        have hlft : lastOf ml = v := by
          rw [lastOf, hml]
          simp [hlast]
        simp only [List.map_cons, List.sum_cons, hlft, hlast]

/-- C5 (amended): for an evaluated trial whose workers are all
COMPLETED and whose metric series are all present and non-empty, the
trial's score is the average of the workers' last metric values, where
a last value that fails to parse as a float contributes 0 — no error
and no abnormal termination.  (A truly missing/empty metric series
instead aborts with an index panic; see the counterexample.) -/
theorem evalWorkers_score (env : ManagerEnv) (sid : String) (hb : HyperBandParameters)
    (tid : String) (w : Worker) (ws : List Worker) (sets : List MetricsLogSet)
    (hev : hb.evaluatingTrials = [tid])
    (hw : env.getWorkers tid = .ok (w :: ws))
    (hm : env.getMetrics ((w :: ws).map (fun x => x.workerId)) hb.ObjectiveValueName
      = .ok sets)
    (hsets : ∀ ml ∈ sets, ml.workerStatus = .completed ∧ ml.metricsLogs ≠ [] ∧
      (ml.metricsLogs.headD ⟨"", []⟩).values ≠ []) :
    evalWorkers env sid hb =
      .ok (some [⟨w.trialId,
        ((sets.map fun ml => goParseFloat (lastOf ml)).sum) / (((w :: ws).length : ℚ))⟩]) ∧
    (∀ s : String, parseFloatOpt s.data = none → goParseFloat s = 0) := by
  constructor
  · simp only [evalWorkers, hev, evalLoop, hw, hm, sumSets_formula sets hsets]
    rfl
  · intro s hs
    rw [goParseFloat, hs]
    rfl

/-- The concrete C5 counterexample environment: one evaluating trial,
one COMPLETED worker, but an empty metric series. -/
def envC5 : ManagerEnv :=
  { dial := .ok ()
    getStudy := .ok demoStudy
    getTrials := .ok []
    getWorkers := fun _ => .ok [⟨"wk1", "t1", .completed⟩]
    getMetrics := fun _ _ => .ok [⟨"wk1", .completed, []⟩]
    getSuggestionParameters := fun _ => .ok []
    createTrialId := fun _ => .ok ""
    randInt := fun _ _ a _ => a
    randDouble := fun _ _ a _ => a }

/-- The Hyperband state of the C5 counterexample. -/
def hbC5 : HyperBandParameters :=
  { hbC6 with shloopitr := 1, currentS := 4, evaluatingTrials := ["t1"] }

/-- Counterexample to C5 as stated: a COMPLETED worker whose objective
metric series is missing (empty `MetricsLogs`) does NOT contribute 0 —
the evaluator aborts with an index-out-of-range panic
(`MetricsLogs[0]`). -/
theorem evalWorkers_missing_series_counterexample :
    (⟨"wk1", .completed, []⟩ : MetricsLogSet).workerStatus = .completed ∧
    evalWorkers envC5 "s1" hbC5 = .error .panicIdx :=
  ⟨rfl, by decide⟩

/-- The metric sets of the C5 witness: one parses to 2.5, one is
non-numeric and contributes 0. -/
def setsC5 : List MetricsLogSet :=
  [⟨"wk1", .completed, [⟨"acc", ["1.0000", "2.5000"]⟩]⟩,
   ⟨"wk2", .completed, [⟨"acc", ["oops"]⟩]⟩]

/-- The concrete C5 witness environment: two COMPLETED workers, one
with a non-numeric last metric value. -/
def envW5 : ManagerEnv :=
  { dial := .ok ()
    getStudy := .ok demoStudy
    getTrials := .ok []
    getWorkers := fun _ => .ok [⟨"wk1", "t1", .completed⟩, ⟨"wk2", "t1", .completed⟩]
    getMetrics := fun _ _ => .ok setsC5
    getSuggestionParameters := fun _ => .ok []
    createTrialId := fun _ => .ok ""
    randInt := fun _ _ a _ => a
    randDouble := fun _ _ a _ => a }

/-- Witness for the amended C5 at a concrete environment. -/
theorem evalWorkers_score_witness :
    hbC5.evaluatingTrials = ["t1"] ∧
    evalWorkers envW5 "s1" hbC5 =
      .ok (some [⟨"t1",
        ((setsC5.map fun ml => goParseFloat (lastOf ml)).sum) / ((2 : ℕ) : ℚ)⟩]) ∧
    goParseFloat "oops" = 0 :=
  ⟨rfl,
   (evalWorkers_score envW5 "s1" hbC5 "t1" ⟨"wk1", "t1", .completed⟩
      [⟨"wk2", "t1", .completed⟩] setsC5 rfl rfl rfl (by decide)).1,
   (evalWorkers_score envW5 "s1" hbC5 "t1" ⟨"wk1", "t1", .completed⟩
      [⟨"wk2", "t1", .completed⟩] setsC5 rfl rfl rfl (by decide)).2 "oops" (by decide)⟩

/- ### C2: FAILED_PRECONDITION on incomplete workers -/

theorem sumSets_none_of_bad (sets : List MetricsLogSet)
    (hgood : ∀ ml ∈ sets, ml.workerStatus = .completed →
      ml.metricsLogs ≠ [] ∧ (ml.metricsLogs.headD ⟨"", []⟩).values ≠ [])
    (hbad : ∃ ml ∈ sets, ml.workerStatus ≠ .completed) :
    sumSets sets = .ok none := by
  induction sets with
  | nil =>
    obtain ⟨ml, hml, _⟩ := hbad
    simp at hml
  | cons ml0 rest ih =>
    rw [sumSets]
    by_cases hc : ml0.workerStatus = .completed
    · rw [if_neg (by simp [hc])]
      obtain ⟨hne, hv⟩ := hgood ml0 (List.mem_cons_self _ _) hc
      cases hml : ml0.metricsLogs with
      | nil => exact absurd hml hne
      | cons l0 ls =>
        have hv0 : l0.values ≠ [] := by
          rw [hml] at hv
          simpa using hv
        cases hlast : l0.values.getLast? with
        | none =>
          rw [List.getLast?_eq_none_iff] at hlast
          exact absurd hlast hv0
        | some v =>
          have hbadrest : ∃ ml ∈ rest, ml.workerStatus ≠ .completed := by
            obtain ⟨mlb, hmlb, hb⟩ := hbad
            rcases List.mem_cons.mp hmlb with rfl | h2
            · exact absurd hc hb
            · exact ⟨mlb, h2, hb⟩
          rw [ih (fun x hx => hgood x (List.mem_cons_of_mem _ hx)) hbadrest]
          simp only [hlast]
    · rw [if_pos hc]

theorem evalLoop_not_ready (env : ManagerEnv) (sid oname : String) :
    ∀ (l : List String) (acc : Bracket),
      (∀ tid ∈ l, ∃ ws sets, env.getWorkers tid = .ok ws ∧
        env.getMetrics (ws.map (fun w => w.workerId)) oname = .ok sets ∧
        ∀ ml ∈ sets, ml.workerStatus = .completed →
          ml.metricsLogs ≠ [] ∧ (ml.metricsLogs.headD ⟨"", []⟩).values ≠ []) →
      (∃ tid ∈ l, ∃ ws sets, env.getWorkers tid = .ok ws ∧
        env.getMetrics (ws.map (fun w => w.workerId)) oname = .ok sets ∧
        ∃ ml ∈ sets, ml.workerStatus ≠ .completed) →
      evalLoop env sid oname l acc = .ok none := by
  intro l
  induction l with
  | nil =>
    intro acc _ hbad
    obtain ⟨tid, htid, _⟩ := hbad
    simp at htid
  | cons tid0 rest ih =>
    intro acc hall hbad
    obtain ⟨ws0, sets0, hw0, hm0, hgood0⟩ := hall tid0 (List.mem_cons_self _ _)
    rw [evalLoop, hw0]
    simp only
    rw [hm0]
    simp only
    by_cases hbad0 : ∃ ml ∈ sets0, ml.workerStatus ≠ .completed
    · rw [sumSets_none_of_bad sets0 hgood0 hbad0]
    · push_neg at hbad0
      have hforml : ∀ ml ∈ sets0, ml.workerStatus = .completed ∧
          ml.metricsLogs ≠ [] ∧ (ml.metricsLogs.headD ⟨"", []⟩).values ≠ [] :=
        fun ml hml => ⟨hbad0 ml hml, hgood0 ml hml (hbad0 ml hml)⟩
      rw [sumSets_formula sets0 hforml]
      cases hws : ws0 with
      | nil => simp
      | cons w ws2 =>
        simp only
        have hbadrest : ∃ tid ∈ rest, ∃ ws sets, env.getWorkers tid = .ok ws ∧
            env.getMetrics (ws.map (fun w => w.workerId)) oname = .ok sets ∧
            ∃ ml ∈ sets, ml.workerStatus ≠ .completed := by
          obtain ⟨tidb, htidb, wsb, setsb, hwb, hmb, hmlb⟩ := hbad
          rcases List.mem_cons.mp htidb with rfl | htidb2
          · rw [hw0] at hwb
            injection hwb with hwseq
            subst hwseq
            rw [hm0] at hmb
            injection hmb with hseq
            subst hseq
            obtain ⟨mlb, hmlb2, hb⟩ := hmlb
            exact absurd (hbad0 mlb hmlb2) hb
          · exact ⟨tidb, htidb2, wsb, setsb, hwb, hmb, hmlb⟩
        exact ih _ (fun t ht => hall t (List.mem_cons_of_mem _ ht)) hbadrest

/-- C2: if the current `GetSuggestions` step requires evaluation
(`evaluatingTrials` non-empty, `shloopitr ≠ 0`, and the step is inside
the current outer loop) and any worker of any evaluating trial reports
a status other than COMPLETED, then the call returns the
`FAILED_PRECONDITION` error, creates no trials on the Manager, and
never calls `SetSuggestionParameters`. -/
theorem getSuggestions_failed_precondition (env : ManagerEnv)
    (req : GetSuggestionsRequest) (spr : List SuggestionParameter)
    (hb : HyperBandParameters)
    (hdial : env.dial = .ok ())
    (hsp : env.getSuggestionParameters req.paramId = .ok spr)
    (hpurse : purseSuggestionParameters env req.studyId spr = .ok hb)
    (hcs : 0 < hb.currentS)
    (hsh0 : hb.shloopitr ≠ 0)
    (hshle : hb.shloopitr ≤ hb.currentS)
    (hev : hb.evaluatingTrials ≠ [])
    (Hrpc : ∀ tid ∈ hb.evaluatingTrials, ∃ ws sets,
      env.getWorkers tid = .ok ws ∧
      env.getMetrics (ws.map (fun w => w.workerId)) hb.ObjectiveValueName = .ok sets ∧
      ∀ ml ∈ sets, ml.workerStatus = .completed →
        ml.metricsLogs ≠ [] ∧ (ml.metricsLogs.headD ⟨"", []⟩).values ≠ [])
    (Hbad : ∃ tid ∈ hb.evaluatingTrials, ∃ ws sets,
      env.getWorkers tid = .ok ws ∧
      env.getMetrics (ws.map (fun w => w.workerId)) hb.ObjectiveValueName = .ok sets ∧
      ∃ ml ∈ sets, ml.workerStatus ≠ .completed) :
    getSuggestions env req =
      (.error .failedPrec, { k := 0, created := [], saved := none }) := by
  have heval : evalWorkers env req.studyId hb = .ok none := by
    rw [evalWorkers]
    exact evalLoop_not_ready env req.studyId hb.ObjectiveValueName
      hb.evaluatingTrials [] Hrpc Hbad
  have hnotmaster : ¬ (hb.evaluatingTrials = [] ∨ hb.shloopitr = 0) :=
    not_or.mpr ⟨hev, hsh0⟩
  simp only [getSuggestions, hdial, hsp, hpurse, if_neg (not_le.mpr hcs),
    if_neg (not_lt.mpr hshle), makeBracket, if_neg hnotmaster, heval]

/-- The Hyperband state of the C2 witness: mid-bracket (`shloopitr = 1`)
with one evaluating trial. -/
def hbC2 : HyperBandParameters :=
  { eta := 3, sMax := 4, b_l := 405, r_l := 81, r := 1, n := 81,
    shloopitr := 1, currentS := 4, ResourceName := "epochs",
    ObjectiveValueName := "acc", evaluatingTrials := ["t1"] }

/-- The concrete C2 witness environment: one evaluating trial whose
single worker is still RUNNING. -/
def envC2 : ManagerEnv :=
  { dial := .ok ()
    getStudy := .ok demoStudy
    getTrials := .ok []
    getWorkers := fun _ => .ok [⟨"wk1", "t1", .running⟩]
    getMetrics := fun _ _ => .ok [⟨"wk1", .running, []⟩]
    getSuggestionParameters := fun _ => .ok (encodeSuggestionParameters hbC2)
    createTrialId := fun k => .ok ⟨'T' :: natToDigits k⟩
    randInt := fun _ _ a _ => a
    randDouble := fun _ _ a _ => a }

/-- Witness for C2 at a concrete environment. -/
theorem getSuggestions_failed_precondition_witness :
    purseSuggestionParameters envC2 "s1" (encodeSuggestionParameters hbC2) = .ok hbC2 ∧
    hbC2.shloopitr ≠ 0 ∧
    getSuggestions envC2 ⟨"s1", "hyperband", "p1"⟩ =
      (.error .failedPrec, { k := 0, created := [], saved := none }) := by
  have hpurse : purseSuggestionParameters envC2 "s1"
      (encodeSuggestionParameters hbC2) = .ok hbC2 :=
    purse_encode_id envC2 "s1" hbC2 demoStudy rfl rfl
      30000 4050000 810000 10000
      (by norm_num [hbC2]) (by norm_num [hbC2]) (by norm_num [hbC2]) (by norm_num [hbC2])
      (by norm_num [hbC2]) (by norm_num [hbC2]) (by decide) (by decide) (by decide)
      (by decide) (by decide) (by norm_num [hbC2]) (by norm_num [hbC2]) (by decide)
      (by decide)
  refine ⟨hpurse, by decide, ?_⟩
  refine getSuggestions_failed_precondition envC2 ⟨"s1", "hyperband", "p1"⟩
    (encodeSuggestionParameters hbC2) hbC2 rfl rfl hpurse (by decide) (by decide)
    (by decide) (by decide) ?_ ?_
  · intro tid htid
    exact ⟨[⟨"wk1", "t1", .running⟩], [⟨"wk1", .running, []⟩], rfl, rfl, by decide⟩
  · exact ⟨"t1", by decide, [⟨"wk1", "t1", .running⟩], [⟨"wk1", .running, []⟩],
      rfl, rfl, ⟨⟨"wk1", .running, []⟩, by decide, by decide⟩⟩

/- ### C3: persisted evaluatingTrials = returned trial IDs -/

/-- The trial ID of one returned slot (`""` for a nil slot, matching
the unwritten zero value of the preallocated `tids` slice). -/
def optTrialId : Option Trial → String
  | some t => t.trialId
  | none => ""

theorem map_set_comm {α β : Type} (f : α → β) :
    ∀ (l : List α) (i : Nat) (x : α), (l.set i x).map f = (l.map f).set i (f x) := by
  intro l
  induction l with
  | nil => intro i x; simp
  | cons a as ih =>
    intro i x
    cases i with
    | zero => simp [List.set]
    | succ j => simp [List.set, ih]

theorem masterLoop_ids (env : ManagerEnv) (sconf : StudyConfig) (sid : String)
    (r : ℚ) (hb : HyperBandParameters) :
    ∀ (cnt i : Nat) (st : STrace) (tids : List String) (ts : List (Option Trial))
      (tids' : List String) (ts' : List (Option Trial)) (st' : STrace),
      tids = ts.map optTrialId →
      masterLoop env sconf sid r hb cnt i st tids ts = (.ok (tids', ts'), st') →
      tids' = ts'.map optTrialId := by
  intro cnt
  induction cnt with
  | zero =>
    intro i st tids ts tids' ts' st' hinv h
    rw [masterLoop] at h
    injection h with h1 h2
    injection h1 with h3
    injection h3 with h4 h5
    subst h4
    subst h5
    exact hinv
  | succ cnt ih =>
    intro i st tids ts tids' ts' st' hinv h
    rw [masterLoop] at h
    cases hct : env.createTrialId st.k with
    | error m =>
      rw [hct] at h
      injection h with h1 _
      exact absurd h1 (by simp)
    | ok tid =>
      rw [hct] at h
      simp only at h
      refine ih (i + 1) _ _ _ _ _ _ ?_ h
      rw [hinv, List.map_append]
      rfl

theorem childLoop_ids (env : ManagerEnv) (trials : List Trial) (rn : String)
    (rtype : ParameterType) (r_i : ℚ) (sid : String) :
    ∀ (child : Bracket) (i : Nat) (tids : List String) (ts : List (Option Trial))
      (st : STrace) (tids' : List String) (ts' : List (Option Trial)) (st' : STrace),
      tids = ts.map optTrialId →
      childLoop env trials rn rtype r_i sid child i tids ts st = (.ok (tids', ts'), st') →
      tids' = ts'.map optTrialId := by
  intro child
  induction child with
  | nil =>
    intro i tids ts st tids' ts' st' hinv h
    rw [childLoop] at h
    injection h with h1 h2
    injection h1 with h3
    injection h3 with h4 h5
    subst h4
    subst h5
    exact hinv
  | cons e rest ih =>
    intro i tids ts st tids' ts' st' hinv h
    rw [childLoop] at h
    cases hct : env.createTrialId st.k with
    | error m =>
      rw [hct] at h
      injection h with h1 _
      exact absurd h1 (by simp)
    | ok tid =>
      rw [hct] at h
      simp only at h
      by_cases hi : i < tids.length
      · rw [if_pos hi] at h
        refine ih (i + 1) _ _ _ _ _ _ ?_ h
        rw [hinv, map_set_comm]
        rfl
      · rw [if_neg hi] at h
        injection h with h1 _
        exact absurd h1 (by simp)

theorem makeBracket_ids (env : ManagerEnv) (sid : String) (n : Int) (r : ℚ)
    (hb : HyperBandParameters) (st : STrace) (tids : List String)
    (ts : List (Option Trial)) (st' : STrace)
    (h : makeBracket env sid n r hb st = (.ok (some (tids, ts)), st')) :
    tids = ts.map optTrialId := by
  rw [makeBracket] at h
  by_cases hc : hb.evaluatingTrials = [] ∨ hb.shloopitr = 0
  · rw [if_pos hc] at h
    cases hm : makeMasterBracket env sid n r hb st with
    | mk res st2 =>
      rw [hm] at h
      cases res with
      | error e =>
        injection h with h1 _
        exact absurd h1 (by simp)
      | ok p =>
        obtain ⟨p1, p2⟩ := p
        injection h with h1 h2
        injection h1 with h3
        injection h3 with h4
        injection h4 with h5 h6
        subst h5
        subst h6
        rw [makeMasterBracket] at hm
        cases hst : env.getStudy with
        | error e =>
          rw [hst] at hm
          injection hm with h7 _
          exact absurd h7 (by simp)
        | ok sconf =>
          rw [hst] at hm
          simp only at hm
          by_cases hn : n < 0
          · rw [if_pos hn] at hm
            injection hm with h7 _
            exact absurd h7 (by simp)
          · rw [if_neg hn] at hm
            exact masterLoop_ids env sconf sid r hb n.toNat 0 st [] [] _ _ _ rfl hm
  · rw [if_neg hc] at h
    cases hev : evalWorkers env sid hb with
    | error e =>
      rw [hev] at h
      injection h with h1 _
      exact absurd h1 (by simp)
    | ok ob =>
      rw [hev] at h
      cases ob with
      | none =>
        simp only at h
        injection h with h1 _
        exact absurd h1 (by simp)
      | some b =>
        simp only at h
        cases hmc : makeChildBracket env b sid n r hb st with
        | mk res st2 =>
          rw [hmc] at h
          cases res with
          | error e =>
            injection h with h1 _
            exact absurd h1 (by simp)
          | ok p =>
            obtain ⟨p1, p2⟩ := p
            injection h with h1 h2
            injection h1 with h3
            injection h3 with h4
            injection h4 with h5 h6
            subst h5
            subst h6
            rw [makeChildBracket] at hmc
            cases hst : env.getStudy with
            | error e =>
              rw [hst] at hmc
              injection hmc with h7 _
              exact absurd h7 (by simp)
            | ok sconf =>
              rw [hst] at hmc
              simp only at hmc
              cases hsel : childSelection sconf.optimizationType b n with
              | none =>
                rw [hsel] at hmc
                injection hmc with h7 _
                exact absurd h7 (by simp)
              | some child =>
                rw [hsel] at hmc
                cases htr : env.getTrials with
                | error e =>
                  rw [htr] at hmc
                  injection hmc with h7 _
                  exact absurd h7 (by simp)
                | ok trials =>
                  rw [htr] at hmc
                  simp only at hmc
                  by_cases hn : n < 0
                  · rw [if_pos hn] at hmc
                    injection hmc with h7 _
                    exact absurd h7 (by simp)
                  · rw [if_neg hn] at hmc
                    refine childLoop_ids env trials hb.ResourceName _ r sid
                      child 0 _ _ st _ _ _ ?_ hmc
                    simp [optTrialId]

theorem shLoopParamUpdate_ev (x : HyperBandParameters) :
    (shLoopParamUpdate x).evaluatingTrials = x.evaluatingTrials := by
  simp only [shLoopParamUpdate]
  split <;> rfl

/-- C3: whenever `GetSuggestions` successfully returns `k` trials and
hands a state to `SetSuggestionParameters`, that state's
`evaluatingTrials` has length `k` and equals the trial IDs of the
returned trials, in creation order. -/
theorem getSuggestions_persists_returned_ids (env : ManagerEnv)
    (req : GetSuggestionsRequest) (ts : List (Option Trial)) (tr : STrace)
    (h : getSuggestions env req = (.ok ts, tr))
    (hb2 : HyperBandParameters) (hs : tr.saved = some hb2) :
    hb2.evaluatingTrials = ts.map optTrialId ∧
    hb2.evaluatingTrials.length = ts.length := by
  rw [getSuggestions] at h
  cases hdial : env.dial with
  | error e =>
    rw [hdial] at h
    injection h with h1 _
    exact absurd h1 (by simp)
  | ok u =>
    rw [hdial] at h
    simp only at h
    cases hsp : env.getSuggestionParameters req.paramId with
    | error e =>
      rw [hsp] at h
      injection h with h1 _
      exact absurd h1 (by simp)
    | ok spr =>
      rw [hsp] at h
      simp only at h
      cases hpurse : purseSuggestionParameters env req.studyId spr with
      | error e =>
        rw [hpurse] at h
        injection h with h1 _
        exact absurd h1 (by simp)
      | ok hb0 =>
        rw [hpurse] at h
        simp only at h
        by_cases hterm : hb0.currentS ≤ 0
        · rw [if_pos hterm] at h
          injection h with h1 h2
          subst h2
          simp at hs
        · rw [if_neg hterm] at h
          cases hmb : makeBracket env req.studyId
              (getLoopParam (if hb0.shloopitr > hb0.currentS then
                hbLoopParamUpdate hb0 else hb0)).1
              (getLoopParam (if hb0.shloopitr > hb0.currentS then
                hbLoopParamUpdate hb0 else hb0)).2
              (if hb0.shloopitr > hb0.currentS then hbLoopParamUpdate hb0 else hb0)
              { k := 0, created := [], saved := none } with
          | mk res st2 =>
            rw [hmb] at h
            cases res with
            | error e =>
              injection h with h1 _
              exact absurd h1 (by simp)
            | ok ob =>
              cases ob with
              | none =>
                simp only at h
                injection h with h1 _
                exact absurd h1 (by simp)
              | some p =>
                obtain ⟨tids, ts2⟩ := p
                simp only at h
                injection h with h1 h2
                injection h1 with h3
                subst h3
                subst h2
                simp only at hs
                injection hs with hs2
                subst hs2
                constructor
                · rw [shLoopParamUpdate_ev]
                  exact makeBracket_ids env req.studyId _ _ _ _ _ _ _ hmb
                · rw [shLoopParamUpdate_ev]
                  rw [makeBracket_ids env req.studyId _ _ _ _ _ _ _ hmb]
                  exact List.length_map _ _

/-- The Hyperband state of the C3 witness: a cold round
(`shloopitr = 0`) that emits one master-bracket trial. -/
def hbC3 : HyperBandParameters :=
  { eta := 3, sMax := 1, b_l := 6, r_l := 3, r := 1, n := 1,
    shloopitr := 0, currentS := 1, ResourceName := "epochs",
    ObjectiveValueName := "acc", evaluatingTrials := ["t0"] }

/-- The concrete C3 witness environment. -/
def envC3 : ManagerEnv :=
  { dial := .ok ()
    getStudy := .ok demoStudy
    getTrials := .ok []
    getWorkers := fun _ => .ok []
    getMetrics := fun _ _ => .ok []
    getSuggestionParameters := fun _ => .ok (encodeSuggestionParameters hbC3)
    createTrialId := fun k => .ok ⟨'T' :: natToDigits k⟩
    randInt := fun _ _ a _ => a
    randDouble := fun _ _ a _ => a }

/-- The trials the C3 witness run returns. -/
def tsC3 : List (Option Trial) := [some ⟨"T0", "s1", [⟨"epochs", .int, "1"⟩]⟩]

/-- The state the C3 witness run hands to `SetSuggestionParameters`. -/
def hb2C3 : HyperBandParameters :=
  { hbC3 with shloopitr := 1, evaluatingTrials := ["T0"] }

/-- The effect trace of the C3 witness run. -/
def trC3 : STrace :=
  { k := 1, created := [⟨"", "s1", [⟨"epochs", .int, "1"⟩]⟩], saved := some hb2C3 }

theorem getSuggestions_envC3_run :
    getSuggestions envC3 ⟨"s1", "hyperband", "p1"⟩ = (.ok tsC3, trC3) := by
  have hpurse : purseSuggestionParameters envC3 "s1"
      (encodeSuggestionParameters hbC3) = .ok hbC3 :=
    purse_encode_id envC3 "s1" hbC3 demoStudy rfl rfl
      30000 60000 30000 10000
      (by norm_num [hbC3]) (by norm_num [hbC3]) (by norm_num [hbC3]) (by norm_num [hbC3])
      (by norm_num [hbC3]) (by norm_num [hbC3]) (by decide) (by decide) (by decide)
      (by decide) (by decide) (by norm_num [hbC3]) (by norm_num [hbC3]) (by decide)
      (by decide)
  have hloop : getLoopParam hbC3 = (1, 1) := by
    rw [getLoopParam]
    norm_num [hbC3, gotrunc]
  have hmb : makeBracket envC3 "s1" 1 1 hbC3 { k := 0, created := [], saved := none } =
      (.ok (some (["T0"], tsC3)),
       { k := 1, created := [⟨"", "s1", [⟨"epochs", .int, "1"⟩]⟩], saved := none }) := by
    decide
  simp only [getSuggestions, show envC3.dial = Except.ok () from rfl,
    show envC3.getSuggestionParameters "p1" =
      .ok (encodeSuggestionParameters hbC3) from rfl, hpurse,
    if_neg (show ¬ hbC3.currentS ≤ 0 by decide),
    if_neg (show ¬ hbC3.shloopitr > hbC3.currentS by decide), hloop, hmb]
  rfl

/-- Witness for C3 at a concrete run. -/
theorem getSuggestions_persists_returned_ids_witness :
    getSuggestions envC3 ⟨"s1", "hyperband", "p1"⟩ = (.ok tsC3, trC3) ∧
    trC3.saved = some hb2C3 ∧
    hb2C3.evaluatingTrials = tsC3.map optTrialId ∧
    hb2C3.evaluatingTrials.length = tsC3.length :=
  ⟨getSuggestions_envC3_run, rfl,
   (getSuggestions_persists_returned_ids envC3 ⟨"s1", "hyperband", "p1"⟩ tsC3 trC3
      getSuggestions_envC3_run hb2C3 rfl).1,
   (getSuggestions_persists_returned_ids envC3 ⟨"s1", "hyperband", "p1"⟩ tsC3 trC3
      getSuggestions_envC3_run hb2C3 rfl).2⟩

/- ### C1: child-bracket survivor selection under MINIMIZE -/

/-- The parent bracket of the C1 failing input: three entries sorted
descending by score. -/
def parentC1 : Bracket := [⟨"t1", 3⟩, ⟨"t2", 2⟩, ⟨"t3", 1⟩]

/-- The concrete C1 environment: a MINIMIZE study. -/
def envC1 : ManagerEnv :=
  { dial := .ok ()
    getStudy := .ok { parameterConfigs := [⟨"epochs", .int, ⟨"81", "1", []⟩⟩]
                      objectiveValueName := "acc"
                      optimizationType := .minimize }
    getTrials := .ok []
    getWorkers := fun _ => .ok []
    getMetrics := fun _ _ => .ok []
    getSuggestionParameters := fun _ => .ok []
    createTrialId := fun k => .ok ⟨'c' :: natToDigits k⟩
    randInt := fun _ _ a _ => a
    randDouble := fun _ _ a _ => a }

/-- The Hyperband state of the C1 failing input. -/
def hbC1 : HyperBandParameters :=
  { hbC6 with shloopitr := 1, evaluatingTrials := ["t1", "t2", "t3"] }

/-- C1 is a code bug: under MINIMIZE, `makeChildBracket` selects
`parent[n:]` — ALL BUT the first `n` entries (here 2 of 3), not the
last `n` (here 1) — and then writes `len(parent) - n` trial IDs into a
slice of length `n`, panicking with index-out-of-range after creating
`n + 1` trials on the Manager.  At the failing input (descending
3-entry parent, survivor count `n = 1`): the selection has 2 entries,
is not the last-1 suffix, the call aborts with the index panic, and 2
trials were already created. -/
theorem makeChildBracket_minimize_bug :
    childSelection OptimizationType.minimize parentC1 1 = some (parentC1.drop 1) ∧
    (parentC1.drop 1).length = 2 ∧
    parentC1.drop 1 ≠ [⟨"t3", 1⟩] ∧
    (makeChildBracket envC1 parentC1 "s1" 1 3 hbC1 {}).1 = .error .panicIdx ∧
    (makeChildBracket envC1 parentC1 "s1" 1 3 hbC1 {}).2.created.length = 2 := by
  decide

/- ### C7: child-bracket parameter preservation -/

theorem childLoop_created (env : ManagerEnv) (trials : List Trial) (rn : String)
    (rtype : ParameterType) (r_i : ℚ) (sid : String) :
    ∀ (child : Bracket) (i : Nat) (tids : List String) (ts : List (Option Trial))
      (st : STrace) (res : Except GoErr (List String × List (Option Trial)))
      (st' : STrace),
      childLoop env trials rn rtype r_i sid child i tids ts st = (res, st') →
      ∃ k, st'.created = st.created ++
        ((child.take k).map (fun e => childTrialReq trials rn rtype r_i sid e.id)) := by
  intro child
  induction child with
  | nil =>
    intro i tids ts st res st' h
    rw [childLoop] at h
    injection h with h1 h2
    subst h2
    exact ⟨0, by simp⟩
  | cons e rest ih =>
    intro i tids ts st res st' h
    rw [childLoop] at h
    cases hct : env.createTrialId st.k with
    | error m =>
      rw [hct] at h
      injection h with h1 h2
      subst h2
      exact ⟨0, by simp⟩
    | ok tid =>
      rw [hct] at h
      simp only at h
      by_cases hi : i < tids.length
      · rw [if_pos hi] at h
        obtain ⟨k, hk⟩ := ih (i + 1) _ _ _ res st' h
        refine ⟨k + 1, ?_⟩
        rw [hk]
        simp only [List.take_succ_cons, List.map_cons, List.cons_append,
          List.append_assoc]
        rfl
      · rw [if_neg hi] at h
        injection h with h1 h2
        subst h2
        exact ⟨1, by simp⟩

/-- C7: every trial created by a child bracket carries its parent
(survivor) trial's parameter set with only the resource parameter's
value rewritten to `r_i` (integer-formatted for an INT parameter,
fixed-4 float otherwise); every parameter whose name differs from the
resource name keeps its name, type, and value verbatim. -/
theorem childBracket_preserves_params (env : ManagerEnv) (parent : Bracket)
    (sid : String) (n : Int) (r_i : ℚ) (hb : HyperBandParameters) (st : STrace)
    (res : Except GoErr (List String × List (Option Trial))) (st' : STrace)
    (sconf : StudyConfig) (trials : List Trial)
    (hstudy : env.getStudy = .ok sconf)
    (htr : env.getTrials = .ok trials)
    (hrun : makeChildBracket env parent sid n r_i hb st = (res, st'))
    (t : Trial) (ht : t ∈ st'.created.drop st.created.length) :
    ∃ e child, childSelection sconf.optimizationType parent n = some child ∧
      e ∈ child ∧
      t.parameterSet = (lastParamSet trials e.id).map
        (rwParam hb.ResourceName (resourceType sconf.parameterConfigs hb.ResourceName) r_i) ∧
      ∀ p ∈ lastParamSet trials e.id,
        (rwParam hb.ResourceName (resourceType sconf.parameterConfigs hb.ResourceName) r_i p).name
            = p.name ∧
        (p.name ≠ hb.ResourceName →
          (rwParam hb.ResourceName (resourceType sconf.parameterConfigs hb.ResourceName) r_i p)
            = p) ∧
        (p.name = hb.ResourceName →
          (rwParam hb.ResourceName (resourceType sconf.parameterConfigs hb.ResourceName) r_i p).value
            = fmtResource (resourceType sconf.parameterConfigs hb.ResourceName) r_i) := by
  rw [makeChildBracket, hstudy] at hrun
  simp only at hrun
  cases hsel : childSelection sconf.optimizationType parent n with
  | none =>
    rw [hsel] at hrun
    injection hrun with h1 h2
    subst h2
    simp at ht
  | some child =>
    rw [hsel, htr] at hrun
    simp only at hrun
    by_cases hn : n < 0
    · rw [if_pos hn] at hrun
      injection hrun with h1 h2
      subst h2
      simp at ht
    · rw [if_neg hn] at hrun
      obtain ⟨k, hk⟩ := childLoop_created env trials hb.ResourceName
        (resourceType sconf.parameterConfigs hb.ResourceName) r_i sid
        child 0 _ _ st res st' hrun
      rw [hk, List.drop_left] at ht
      obtain ⟨e, he, rfl⟩ := List.mem_map.mp ht
      refine ⟨e, child, rfl, List.mem_of_mem_take he, rfl, ?_⟩
      intro p _
      refine ⟨?_, ?_, ?_⟩
      · rw [rwParam]
        split <;> rfl
      · intro hne
        rw [rwParam, if_neg hne]
      · intro heq
        rw [rwParam, if_pos heq]

/-- The prior trials of the C7 witness. -/
def trialsC7 : List Trial :=
  [⟨"t1", "s1", [⟨"epochs", .int, "1"⟩, ⟨"lr", .double, "0.5000"⟩]⟩,
   ⟨"t2", "s1", [⟨"epochs", .int, "1"⟩, ⟨"lr", .double, "0.1250"⟩]⟩]

/-- The study configuration of the C7 witness: a MAXIMIZE study with
an INT resource parameter and a DOUBLE parameter. -/
def studyC7 : StudyConfig :=
  { parameterConfigs := [⟨"epochs", .int, ⟨"81", "1", []⟩⟩, ⟨"lr", .double, ⟨"1", "0", []⟩⟩]
    objectiveValueName := "acc"
    optimizationType := .maximize }

/-- The concrete C7 witness environment. -/
def envC7 : ManagerEnv :=
  { dial := .ok ()
    getStudy := .ok studyC7
    getTrials := .ok trialsC7
    getWorkers := fun _ => .ok []
    getMetrics := fun _ _ => .ok []
    getSuggestionParameters := fun _ => .ok []
    createTrialId := fun k => .ok ⟨'c' :: natToDigits k⟩
    randInt := fun _ _ a _ => a
    randDouble := fun _ _ a _ => a }

/-- Witness for C7 at a concrete run. -/
theorem childBracket_preserves_params_witness :
    envC7.getStudy = .ok studyC7 ∧
    (∃ e child,
      childSelection OptimizationType.maximize [⟨"t1", (3 : ℚ)⟩, ⟨"t2", (1 : ℚ)⟩] 1
        = some child ∧
      e ∈ child ∧
      (childTrialReq trialsC7 "epochs" .int 3 "s1" "t1").parameterSet
        = (lastParamSet trialsC7 e.id).map (rwParam "epochs" .int 3) ∧
      ∀ p ∈ lastParamSet trialsC7 e.id,
        (rwParam "epochs" .int 3 p).name = p.name ∧
        (p.name ≠ "epochs" → rwParam "epochs" .int 3 p = p) ∧
        (p.name = "epochs" → (rwParam "epochs" .int 3 p).value = fmtResource .int 3)) := by
  refine ⟨rfl, ?_⟩
  have h := childBracket_preserves_params envC7 [⟨"t1", (3 : ℚ)⟩, ⟨"t2", (1 : ℚ)⟩]
    "s1" 1 3 hbC6 {}
    (makeChildBracket envC7 [⟨"t1", (3 : ℚ)⟩, ⟨"t2", (1 : ℚ)⟩] "s1" 1 3 hbC6 {}).1
    (makeChildBracket envC7 [⟨"t1", (3 : ℚ)⟩, ⟨"t2", (1 : ℚ)⟩] "s1" 1 3 hbC6 {}).2
    studyC7
    trialsC7 rfl rfl rfl
    (childTrialReq trialsC7 "epochs" .int 3 "s1" "t1")
    (by
      have hcr : (makeChildBracket envC7 [⟨"t1", (3 : ℚ)⟩, ⟨"t2", (1 : ℚ)⟩] "s1" 1 3 hbC6
          { k := 0, created := [], saved := none }).2.created
          = [childTrialReq trialsC7 "epochs" .int 3 "s1" "t1"] := by decide
      simp [hcr])
  simpa using h

/- ### C10: teardown paths and the pod list -/

/-- All cluster/database responses one worker row needs for every
teardown and update path to run to completion: a non-empty pod list, a
readable Job, readable timestamp and logs, a log store that succeeds
(or empty logs), and status updates that succeed. -/
def goodRow (env : WorkerEnv) (w : WorkerRow) : Bool :=
  match env.podsList w.workerId with
  | .error _ => false
  | .ok [] => false
  | .ok (p :: _) =>
    (match env.jobGet w.workerId with
     | .ok _ => true
     | .error _ => false) &&
    (match env.getWorkerTimestamp w.workerId with
     | .error _ => false
     | .ok mt =>
       match env.podLogs p.name mt with
       | .error _ => false
       | .ok logs =>
         (logs == "") ||
         (match env.storeWorkerLogsRes w.workerId (goSplit logs '\n') with
          | .ok _ => true
          | .error _ => false)) &&
    (match env.updateWorkerRes w.workerId .running with
     | .ok _ => true
     | .error _ => false) &&
    (match env.updateWorkerRes w.workerId .completed with
     | .ok _ => true
     | .error _ => false) &&
    (match env.updateWorkerRes w.workerId .killed with
     | .ok _ => true
     | .error _ => false)

theorem goodRow_spec (env : WorkerEnv) (w : WorkerRow) (h : goodRow env w = true) :
    ∃ p l mt, env.podsList w.workerId = .ok (p :: l) ∧
      (∃ sj, env.jobGet w.workerId = .ok sj) ∧
      env.getWorkerTimestamp w.workerId = .ok mt ∧
      (∃ logs, env.podLogs p.name mt = .ok logs ∧
        (logs = "" ∨ env.storeWorkerLogsRes w.workerId (goSplit logs '\n') = .ok ())) ∧
      env.updateWorkerRes w.workerId .running = .ok () ∧
      env.updateWorkerRes w.workerId .completed = .ok () ∧
      env.updateWorkerRes w.workerId .killed = .ok () := by
  unfold goodRow at h
  cases hp : env.podsList w.workerId with
  | error e => rw [hp] at h; simp at h
  | ok pl =>
    cases pl with
    | nil => rw [hp] at h; simp at h
    | cons p l =>
      rw [hp] at h
      simp only [Bool.and_eq_true] at h
      obtain ⟨⟨⟨⟨hjob, hlog⟩, hrun⟩, hcmp⟩, hkil⟩ := h
      refine ⟨p, l, ?_⟩
      cases hj : env.jobGet w.workerId with
      | error e => rw [hj] at hjob; simp at hjob
      | ok sj =>
        cases ht : env.getWorkerTimestamp w.workerId with
        | error e => rw [ht] at hlog; simp at hlog
        | ok mt =>
          rw [ht] at hlog
          simp only at hlog
          cases hl : env.podLogs p.name mt with
          | error e => rw [hl] at hlog; simp at hlog
          | ok logs =>
            rw [hl] at hlog
            simp only at hlog
            refine ⟨mt, rfl, ⟨sj, rfl⟩, rfl, ⟨logs, hl, ?_⟩, ?_, ?_, ?_⟩
            · have hlog2 : logs = "" ∨
                  (match env.storeWorkerLogsRes w.workerId (goSplit logs '\n') with
                   | .ok _ => true
                   | .error _ => false) = true := by
                simpa using hlog
              rcases hlog2 with hl2 | hl2
              · exact Or.inl hl2
              · right
                cases hs : env.storeWorkerLogsRes w.workerId (goSplit logs '\n') with
                | error e => rw [hs] at hl2; simp at hl2
                | ok u => cases u; rfl
            · cases hr : env.updateWorkerRes w.workerId .running with
              | error e => rw [hr] at hrun; simp at hrun
              | ok u => cases u; rfl
            · cases hr : env.updateWorkerRes w.workerId .completed with
              | error e => rw [hr] at hcmp; simp at hcmp
              | ok u => cases u; rfl
            · cases hr : env.updateWorkerRes w.workerId .killed with
              | error e => rw [hr] at hkil; simp at hkil
              | ok u => cases u; rfl

theorem StoreWorkerLog_ok_of_goodRow (env : WorkerEnv) (w : WorkerRow)
    (h : goodRow env w = true) :
    (StoreWorkerLog env w.workerId).1 = .ok () := by
  obtain ⟨p, l, mt, hp, _, ht, ⟨logs, hl, hstore⟩, _⟩ := goodRow_spec env w h
  have hpe : podsOrEmpty env w.workerId = p :: l := by
    simp [podsOrEmpty, hp, Except.toOption]
  simp only [StoreWorkerLog, hpe, ht, hl]
  by_cases hz : logs = ""
  · rw [if_pos hz]
  · rw [if_neg hz]
    rcases hstore with hstore | hstore
    · exact absurd hstore hz
    · rw [hstore]

theorem IsWorkerComplete_ok_of_goodRow (env : WorkerEnv) (w : WorkerRow)
    (h : goodRow env w = true) :
    ∃ b, IsWorkerComplete env w.workerId = .ok b := by
  obtain ⟨p, l, mt, hp, ⟨sj, hj⟩, _⟩ := goodRow_spec env w h
  have hpe : podsOrEmpty env w.workerId = p :: l := by
    simp [podsOrEmpty, hp, Except.toOption]
  simp only [IsWorkerComplete, hj, hpe]
  by_cases hs : sj = 0
  · exact ⟨false, by rw [if_pos hs]⟩
  · exact ⟨(p.phase = "Succeeded" : Bool), by rw [if_neg hs]⟩

theorem updateOneWorker_ok_of_goodRow (env : WorkerEnv) (w : WorkerRow)
    (h : goodRow env w = true) :
    (updateOneWorker env w).1 = .ok () := by
  obtain ⟨p, l, mt, hp, ⟨sj, hj⟩, ht, ⟨logs, hl, hstore⟩, hrun, hcmp, hkil⟩ :=
    goodRow_spec env w h
  have hpe : podsOrEmpty env w.workerId = p :: l := by
    simp [podsOrEmpty, hp, Except.toOption]
  have hsl := StoreWorkerLog_ok_of_goodRow env w h
  rw [updateOneWorker]
  by_cases hpend : w.status = .pending
  · rw [if_pos hpend]
    cases hswl : StoreWorkerLog env w.workerId with
    | mk r ops =>
      cases r with
      | error e => simp
      | ok u => cases u; simp [hrun]
  · rw [if_neg hpend]
    by_cases hr2 : w.status = .running
    · rw [if_pos hr2]
      obtain ⟨b, hiwc⟩ := IsWorkerComplete_ok_of_goodRow env w h
      rw [hiwc]
      cases hswl : StoreWorkerLog env w.workerId with
      | mk r ops =>
        rw [hswl] at hsl
        simp only at hsl
        cases r with
        | error e => exact absurd hsl (by simp)
        | ok u =>
          cases u
          cases b with
          | false => simp
          | true => simp [hcmp, hpe]
    · rw [if_neg hr2]

theorem cleanOneWorker_ok_of_goodRow (env : WorkerEnv) (w : WorkerRow)
    (h : goodRow env w = true) :
    (cleanOneWorker env w).1 = .ok () := by
  obtain ⟨p, l, mt, hp, _, _, _, _, _, hkil⟩ := goodRow_spec env w h
  have hpe : podsOrEmpty env w.workerId = p :: l := by
    simp [podsOrEmpty, hp, Except.toOption]
  rw [cleanOneWorker]
  by_cases hr2 : w.status = .running
  · rw [if_pos hr2]
    simp [hpe, hkil]
  · rw [if_neg hr2]

theorem stopOneMatch_ok_of_goodRow (env : WorkerEnv) (b : Bool) (w : WorkerRow)
    (wid : String) (h : goodRow env w = true) :
    (stopOneMatch env b w wid).1 = .ok () := by
  obtain ⟨p, l, mt, hp, _, _, _, _, hcmp, hkil⟩ := goodRow_spec env w h
  rw [stopOneMatch]
  by_cases hc : w.status = .running ∧ w.workerId = wid
  · rw [if_pos hc]
    rw [← hc.2, hp]
    cases b <;> simp [hcmp, hkil]
  · rw [if_neg hc]

theorem runSeq_ok {α : Type} (f : α → Except GoErr Unit × WTrace) (l : List α)
    (h : ∀ x ∈ l, (f x).1 = .ok ()) (acc : WTrace) :
    (runSeq f l acc).1 = .ok () := by
  induction l generalizing acc with
  | nil => rfl
  | cons x rest ih =>
    rw [runSeq]
    have hx := h x (List.mem_cons_self _ _)
    cases hfx : f x with
    | mk r tr =>
      rw [hfx] at hx
      simp only at hx
      cases r with
      | error e => exact absurd hx (by simp)
      | ok u =>
        exact ih (fun y hy => h y (List.mem_cons_of_mem _ hy)) _

/-- The concrete C10 counterexample environment: one RUNNING worker
whose pod list comes back empty. -/
def envC10 : WorkerEnv :=
  { podsList := fun _ => .ok []
    jobGet := fun _ => .ok 1
    jobCreateRes := fun _ => .ok ()
    podLogs := fun _ _ => .ok ""
    getWorkerTimestamp := fun _ => .ok none
    getWorkerList := fun _ => .ok [⟨"w1", .running⟩]
    updateWorkerRes := fun _ _ => .ok ()
    storeWorkerLogsRes := fun _ _ => .ok () }

/-- Counterexample to C10 as stated: with an empty pod list, the
teardown paths abort with an index-out-of-range panic instead of
completing best-effort. -/
theorem teardown_empty_podlist_counterexample :
    (CleanWorkers envC10 "s10").1 = .error .panicIdx ∧
    (StopWorkers envC10 "s10" ["w1"] false).1 = .error .panicIdx := by
  decide

/-- C10 (amended): the teardown paths index the first pod without an
emptiness check.  For every worker whose pod list is non-empty and whose
cluster/database responses succeed, `CleanWorkers`, `StopWorkers` and
`UpdateWorkerStatus` complete without error; a worker whose pod list
comes back empty instead aborts the call with an index-out-of-range
panic (see the counterexample). -/
theorem teardown_no_oob (env : WorkerEnv) (sid : String) (ws : List WorkerRow)
    (wIDs : List String) (b : Bool)
    (hlist : env.getWorkerList sid = .ok ws)
    (hgood : ∀ w ∈ ws, goodRow env w = true) :
    (CleanWorkers env sid).1 = .ok () ∧
    (StopWorkers env sid wIDs b).1 = .ok () ∧
    (UpdateWorkerStatus env sid).1 = .ok () := by
  refine ⟨?_, ?_, ?_⟩
  · rw [CleanWorkers, hlist]
    exact runSeq_ok _ _ (fun w hw => cleanOneWorker_ok_of_goodRow env w (hgood w hw)) _
  · rw [StopWorkers, hlist]
    exact runSeq_ok _ _
      (fun w hw => runSeq_ok _ _
        (fun wid _ => stopOneMatch_ok_of_goodRow env b w wid (hgood w hw)) _) _
  · rw [UpdateWorkerStatus, hlist]
    exact runSeq_ok _ _ (fun w hw => updateOneWorker_ok_of_goodRow env w (hgood w hw)) _

/-- The concrete C10 witness environment: one RUNNING worker with a
non-empty pod list and successful responses. -/
def envW10 : WorkerEnv :=
  { podsList := fun _ => .ok [⟨"pod1", "Succeeded"⟩]
    jobGet := fun _ => .ok 1
    jobCreateRes := fun _ => .ok ()
    podLogs := fun _ _ => .ok ""
    getWorkerTimestamp := fun _ => .ok none
    getWorkerList := fun _ => .ok [⟨"w1", .running⟩]
    updateWorkerRes := fun _ _ => .ok ()
    storeWorkerLogsRes := fun _ _ => .ok () }

/-- Witness for the amended C10 at a concrete environment. -/
theorem teardown_no_oob_witness :
    envW10.getWorkerList "s10" = .ok [⟨"w1", .running⟩] ∧
    (∀ w ∈ [(⟨"w1", .running⟩ : WorkerRow)], goodRow envW10 w = true) ∧
    (CleanWorkers envW10 "s10").1 = .ok () ∧
    (StopWorkers envW10 "s10" ["w1"] false).1 = .ok () ∧
    (UpdateWorkerStatus envW10 "s10").1 = .ok () :=
  ⟨rfl, by decide,
    (teardown_no_oob envW10 "s10" [⟨"w1", .running⟩] ["w1"] false rfl (by decide)).1,
    (teardown_no_oob envW10 "s10" [⟨"w1", .running⟩] ["w1"] false rfl (by decide)).2.1,
    (teardown_no_oob envW10 "s10" [⟨"w1", .running⟩] ["w1"] false rfl (by decide)).2.2⟩

/- ### C9: a PENDING worker with empty log output still becomes RUNNING -/

/-- C9: in `UpdateWorkerStatus`, a PENDING worker whose pod list is
non-empty, whose timestamp lookup succeeds, and whose log fetch
succeeds with EMPTY output is still transitioned to RUNNING:
`StoreWorkerLog` returns success without writing any lines to the
Database, and the `UpdateWorker(RUNNING)` call is issued regardless. -/
theorem pending_empty_log_transitions_running (env : WorkerEnv) (w : WorkerRow)
    (p : PodInfo) (ps : List PodInfo) (mt : Option Nat)
    (hst : w.status = .pending)
    (hpods : podsOrEmpty env w.workerId = p :: ps)
    (hts : env.getWorkerTimestamp w.workerId = .ok mt)
    (hlogs : env.podLogs p.name mt = .ok "") :
    StoreWorkerLog env w.workerId = (.ok (), []) ∧
    (updateOneWorker env w).2 = ⟨[.updateWorker w.workerId .running], []⟩ := by
  have hstore : StoreWorkerLog env w.workerId = (.ok (), []) := by
    simp only [StoreWorkerLog, hpods, hts, hlogs, ite_true]
  refine ⟨hstore, ?_⟩
  simp only [updateOneWorker, if_pos hst, hstore]
  cases hres : env.updateWorkerRes w.workerId .running <;> simp [hres]

/-- The concrete C9 witness environment: one PENDING worker whose pod
produces no log output. -/
def envC9 : WorkerEnv :=
  { podsList := fun _ => .ok [⟨"pod1", "Running"⟩]
    jobGet := fun _ => .ok 0
    jobCreateRes := fun _ => .ok ()
    podLogs := fun _ _ => .ok ""
    getWorkerTimestamp := fun _ => .ok none
    getWorkerList := fun _ => .ok [⟨"w1", .pending⟩]
    updateWorkerRes := fun _ _ => .ok ()
    storeWorkerLogsRes := fun _ _ => .ok () }

/-- Witness for C9 at a concrete environment. -/
theorem pending_empty_log_transitions_running_witness :
    (⟨"w1", .pending⟩ : WorkerRow).status = .pending ∧
    podsOrEmpty envC9 "w1" = [⟨"pod1", "Running"⟩] ∧
    StoreWorkerLog envC9 "w1" = (.ok (), []) ∧
    (updateOneWorker envC9 ⟨"w1", .pending⟩).2 =
      ⟨[.updateWorker "w1" .running], []⟩ :=
  ⟨rfl, rfl,
    (pending_empty_log_transitions_running envC9 ⟨"w1", .pending⟩
      ⟨"pod1", "Running"⟩ [] none rfl rfl rfl rfl).1,
    (pending_empty_log_transitions_running envC9 ⟨"w1", .pending⟩
      ⟨"pod1", "Running"⟩ [] none rfl rfl rfl rfl).2⟩

end Katib
